import Mathlib

/-!
The iButton tester: presence test engine and command dispatcher.

A shallow embedding of `src/ibutton_tester.c`.

* C strings are lists of characters (the bytes before the terminating NUL).
* The process state that the claims observe is a record `Sys`: the monotonic
  clock in milliseconds, the number of directory enumerations and sleeps done
  so far, and the payloads handed to `publish_json`, oldest first.
* The environment is a record `World`: what the k-th `opendir`/`readdir`
  sweep of the devices directory yields, and by how many milliseconds the
  k-th `usleep` overshoots its argument.
* `while` loops that wait on the clock take a fuel argument; `none` means
  the fuel ran out before the function returned.
* `int` values are integers; the two narrowing casts of `handle_test`,
  `(int)(now_ms() - t0)` and `(unsigned)(now_ms() - t0)`, are modelled with
  their wrap modulo `2 ^ 32`.
-/

namespace IButton

/-- The content of a NUL-terminated C string. -/
abbrev CStr := List Char

def MAX_DEVICES : Nat := 32
def MAX_ID_LEN : Nat := 64
def MAX_JSON : Nat := 1024

/-- The `w1` part of the configuration: `exclude` holds the first
`exclude_count` entries of the C array, `family_filter` the first
`family_count`. -/
structure w1_cfg_t where
  exclude : List CStr
  family_filter : List CStr
deriving DecidableEq

structure test_cfg_t where
  default_timeout_ms : Int
  debounce_ms : Int
deriving DecidableEq

structure app_cfg_t where
  w1 : w1_cfg_t
  test : test_cfg_t
deriving DecidableEq

/-- The environment of one run. `readdir k` is the list of `d_name`s the k-th
sweep of the devices directory returns, in directory order, or `none` when
`opendir` fails; `over k` is the number of milliseconds by which the k-th
`usleep` call sleeps longer than asked. -/
structure World where
  readdir : Nat → Option (List CStr)
  over : Nat → Nat

/-- The observable process state. -/
structure Sys where
  clock : Nat
  nscan : Nat
  nsleep : Nat
  out : List CStr
deriving DecidableEq

/-- The reading of `now_ms()`. -/
def now_ms (s : Sys) : Nat := s.clock

/-- The call `usleep(usec)`: the argument is converted to `useconds_t`
(32 bits, unsigned), and the clock moves on by that many microseconds plus
the overshoot the environment gives to this sleep. -/
def usleep (w : World) (usec : Int) (s : Sys) : Sys :=
  { s with clock := s.clock + (usec % 2 ^ 32).toNat / 1000 + w.over s.nsleep,
           nsleep := s.nsleep + 1 }

/-- The cast `(int)x` of a 64-bit unsigned value: the value is reduced modulo
`2 ^ 32` into the range of `int`, as gcc and clang define the conversion. -/
def int_cast (x : Nat) : Int :=
  if x % 2 ^ 32 < 2 ^ 31 then ((x % 2 ^ 32 : Nat) : Int)
  else ((x % 2 ^ 32 : Nat) : Int) - 2 ^ 32

/-- The cast `(unsigned)x` of a 64-bit unsigned value. -/
def unsigned_cast (x : Nat) : Nat := x % 2 ^ 32

/-- The result of `snprintf(buf, size, "%s", text)` in `buf`. -/
def snprintf (size : Nat) (text : CStr) : CStr := text.take (size - 1)

/-- The conversion `%u`. -/
def fmt_u (n : Nat) : CStr := Nat.toDigits 10 n

/-! ## w1 helpers -/

def is_excluded (cfg : app_cfg_t) (name : CStr) : Bool :=
  cfg.w1.exclude.any (fun e => decide (name = e))

def family_allowed (cfg : app_cfg_t) (name : CStr) : Bool :=
  if cfg.w1.family_filter.length = 0 then true
  else if name.length < 2 then false
  else cfg.w1.family_filter.any (fun f => decide (name.take 2 = f))

/-- The `readdir` loop of `list_w1_devices`: `out` is the part of the output
array filled so far, so `out.length` is `count`. -/
def list_w1_scan (cfg : app_cfg_t) (max : Int) : List CStr → List CStr → List CStr
  | [], out => out
  | d_name :: rest, out =>
    if d_name.head? = some '.' then list_w1_scan cfg max rest out
    else if is_excluded cfg d_name then list_w1_scan cfg max rest out
    else if !family_allowed cfg d_name then list_w1_scan cfg max rest out
    else if (out.length : Int) < max then
      list_w1_scan cfg max rest (out ++ [snprintf MAX_ID_LEN d_name])
    else list_w1_scan cfg max rest out

/-- The value `list_w1_devices(out, max)` computes from one sweep of the
directory: the returned count (`-1` when the directory cannot be opened) with
the filled part of `out`. -/
def list_w1_result (cfg : app_cfg_t) (max : Int) : Option (List CStr) → Int × List CStr
  | none => (-1, [])
  | some names =>
    let out := list_w1_scan cfg max names []
    ((out.length : Int), out)

/-- The function `list_w1_devices(out, max)`, reading the next sweep the
environment holds. -/
def list_w1_devices (cfg : app_cfg_t) (w : World) (max : Int) (s : Sys) :
    (Int × List CStr) × Sys :=
  (list_w1_result cfg max (w.readdir s.nscan), { s with nscan := s.nscan + 1 })

/-- What the k-th enumeration of a run returns to `handle_test` and
`send_status_event`, which both pass `MAX_DEVICES`. -/
def snapshot (cfg : app_cfg_t) (w : World) (k : Nat) : Int × List CStr :=
  list_w1_result cfg MAX_DEVICES (w.readdir k)

def contains (arr : List CStr) (n : Int) (id : CStr) : Bool :=
  (arr.take n.toNat).any (fun a => decide (a = id))

/-! ## Publishing -/

def publish_json (json : CStr) (s : Sys) : Sys :=
  { s with out := s.out ++ [json] }

def test_w1_read_json : CStr :=
  "\x7b\"event\":\"test\",\"result\":\"fail\",\"error\":\"w1_read\"\x7d".toList

def test_pass_json (device : CStr) (elapsed : Nat) : CStr :=
  snprintf 256
    ("\x7b\"event\":\"test\",\"result\":\"pass\",\"device\":\"".toList ++ device ++
      "\",\"elapsed_ms\":".toList ++ fmt_u elapsed ++ "\x7d".toList)

def test_timeout_json (elapsed : Nat) : CStr :=
  snprintf 256
    ("\x7b\"event\":\"test\",\"result\":\"fail\",\"error\":\"timeout\",\"elapsed_ms\":".toList ++
      fmt_u elapsed ++ "\x7d".toList)

/-! ## The presence test -/

/-- The `for` loop of `handle_test` over the entries `now[i]`, from the entry
at the head of the list on. The flag of the result says whether the loop
published a pass event and returned from `handle_test`. -/
def debounce_loop (cfg : app_cfg_t) (w : World) (baseline : List CStr) (nbase : Int)
    (t0 : Nat) : List CStr → Sys → Sys × Bool
  | [], s => (s, false)
  | id :: rest, s =>
    if !contains baseline nbase id then
      let s1 := usleep w (cfg.test.debounce_ms * 1000) s
      let r := list_w1_devices cfg w MAX_DEVICES s1
      let nc := r.1.1
      let confirm := r.1.2
      let s2 := r.2
      if nc > 0 && contains confirm nc id then
        (publish_json (test_pass_json id (unsigned_cast (now_ms s2 - t0))) s2, true)
      else debounce_loop cfg w baseline nbase t0 rest s2
    else debounce_loop cfg w baseline nbase t0 rest s

/-- The `while` loop of `handle_test` with what follows it. -/
def poll_loop (cfg : app_cfg_t) (w : World) (baseline : List CStr) (nbase : Int)
    (t0 : Nat) (timeout_ms : Int) : Nat → Sys → Option Sys
  | 0, _ => none
  | fuel + 1, s =>
    if int_cast (now_ms s - t0) < timeout_ms then
      let r := list_w1_devices cfg w MAX_DEVICES s
      let n := r.1.1
      let now := r.1.2
      let s1 := r.2
      let p := if n > 0 then debounce_loop cfg w baseline nbase t0 (now.take n.toNat) s1
               else (s1, false)
      if p.2 then some p.1
      else poll_loop cfg w baseline nbase t0 timeout_ms fuel (usleep w (50 * 1000) p.1)
    else
      some (publish_json (test_timeout_json (unsigned_cast (now_ms s - t0))) s)

/-- The timeout `handle_test` works with after its first statement. -/
def effective_timeout (cfg : app_cfg_t) (timeout_ms : Int) : Int :=
  if timeout_ms ≤ 0 then cfg.test.default_timeout_ms else timeout_ms

def handle_test (cfg : app_cfg_t) (w : World) (timeout_ms : Int) (fuel : Nat) (s : Sys) :
    Option Sys :=
  let timeout_ms := effective_timeout cfg timeout_ms
  let r := list_w1_devices cfg w MAX_DEVICES s
  let nbase := r.1.1
  let baseline := r.1.2
  let s1 := r.2
  if nbase < 0 then some (publish_json test_w1_read_json s1)
  else
    let t0 := now_ms s1
    poll_loop cfg w baseline nbase t0 timeout_ms fuel s1

/-! ## Status and scan -/

def status_w1_read_json : CStr :=
  "\x7b\"event\":\"status\",\"result\":\"fail\",\"error\":\"w1_read\"\x7d".toList

/-- One `snprintf(p, rem, ...)` of `send_status_event` followed by `p += w;
rem -= w`: the state is the text in `buf` and `rem`. A call with `rem <= 0`
leaves `buf` as it is (with `rem < 0` the C call writes past the end of
`buf`, which the model does not follow). -/
def snprintf_at (st : CStr × Int) (text : CStr) : CStr × Int :=
  (if 0 < st.2 then st.1 ++ text.take (st.2.toNat - 1) else st.1, st.2 - (text.length : Int))

/-- The `for` loop of `send_status_event` from index `i` on. -/
def status_ids_loop : List CStr → Nat → CStr × Int → CStr × Int
  | [], _, st => st
  | id :: rest, i, st =>
    status_ids_loop rest (i + 1)
      (snprintf_at st ((if i ≠ 0 then ",".toList else []) ++ "\"".toList ++ id ++ "\"".toList))

def send_status_event (cfg : app_cfg_t) (w : World) (s : Sys) : Sys :=
  let r := list_w1_devices cfg w MAX_DEVICES s
  let n := r.1.1
  let ids := r.1.2
  let s1 := r.2
  if n < 0 then publish_json status_w1_read_json s1
  else
    let st0 := snprintf_at ([], (MAX_JSON : Int))
      ("\x7b\"event\":\"status\",\"result\":\"".toList ++
        (if n ≥ 0 then "pass".toList else "fail".toList) ++ "\",\"devices\":[".toList)
    let st1 := status_ids_loop (ids.take n.toNat) 0 st0
    let st2 := snprintf_at st1 "]\x7d".toList
    publish_json st2.1 s1

def handle_scan (cfg : app_cfg_t) (w : World) (s : Sys) : Sys :=
  send_status_event cfg w s

/-! ## Command decoding -/

inductive jsmntype_t where
  | JSMN_UNDEFINED
  | JSMN_OBJECT
  | JSMN_ARRAY
  | JSMN_STRING
  | JSMN_PRIMITIVE
deriving DecidableEq

/-- A token of the jsmn tokenizer; `end_` is the field `end`. -/
structure jsmntok_t where
  type : jsmntype_t
  start : Int
  end_ : Int
  size : Int
deriving DecidableEq

/-- The tokenizer `jsmn_parse` is a library outside this source file: the
functions below take it as a parameter. It maps the text and the capacity of
the token array to its return value (the number of tokens, or a negative
error code) and the token array. -/
abbrev jsmn_tokenizer := CStr → Nat → Int × List jsmntok_t

/-- The bytes `js + t.start` up to `js + t.end`. -/
def tok_text (js : CStr) (t : jsmntok_t) : CStr :=
  (js.drop t.start.toNat).take (t.end_ - t.start).toNat

/-- The test of `json_get_string` on `toks[i]`: a string token with the
length and the bytes of `key`. -/
def tok_is_key (js : CStr) (t : jsmntok_t) (key : CStr) : Bool :=
  decide (t.type = jsmntype_t.JSMN_STRING) &&
  decide ((key.length : Int) = t.end_ - t.start) &&
  decide ((js.drop t.start.toNat).take (t.end_ - t.start).toNat = key)

/-- The copy `json_get_string` makes of the value token into `out`. -/
def tok_copy (js : CStr) (v : jsmntok_t) (outlen : Nat) : CStr :=
  let len := v.end_ - v.start
  let len := if len < 0 ∨ (outlen : Int) ≤ len then (outlen : Int) - 1 else len
  (js.drop v.start.toNat).take len.toNat

/-- The loop of `json_get_string` from `toks[i]` on, the list being `toks[i]`,
`toks[i + 1]`, ... up to `toks[ntok - 1]`. -/
def json_get_string_from (js : CStr) (key : CStr) (outlen : Nat) : List jsmntok_t → Option CStr
  | [] => none
  | [_] => none
  | t :: v :: rest =>
    if tok_is_key js t key && decide (v.type = jsmntype_t.JSMN_STRING) then
      some (tok_copy js v outlen)
    else json_get_string_from js key outlen (v :: rest)

/-- The function `json_get_string`: `some out` when it returns 1. -/
def json_get_string (js : CStr) (toks : List jsmntok_t) (ntok : Int) (key : CStr)
    (outlen : Nat) : Option CStr :=
  json_get_string_from js key outlen ((toks.take ntok.toNat).drop 1)

def isspace (c : Char) : Bool :=
  c = ' ' || c = '\t' || c = '\n' || c = Char.ofNat 11 || c = Char.ofNat 12 || c = '\r'

/-- The decimal digits at the head of the text, accumulated onto `acc`. -/
def atoi_digits : List Char → Nat → Nat
  | [], acc => acc
  | c :: cs, acc => if c.isDigit then atoi_digits cs (acc * 10 + (c.toNat - 48)) else acc

/-- The function `atoi`. C leaves a value outside `int` undefined; the model
saturates, as `strtol` does where `long` has 32 bits. -/
def atoi (s : CStr) : Int :=
  let clamp := fun (v : Int) => max (-(2 ^ 31)) (min v (2 ^ 31 - 1))
  match s.dropWhile isspace with
  | '-' :: r => clamp (-(atoi_digits r 0 : Int))
  | '+' :: r => clamp (atoi_digits r 0 : Int)
  | r => clamp (atoi_digits r 0 : Int)

/-- The function `json_get_int`: `some out` when it returns 1. -/
def json_get_int (js : CStr) (toks : List jsmntok_t) (ntok : Int) (key : CStr) : Option Int :=
  match json_get_string js toks ntok key 32 with
  | none => none
  | some buf => some (atoi buf)

/-- The function `json_action_and_timeout`: `none` when it returns 0, else
the action written to `action_out` and the value `*timeout_ms_out` holds
afterwards, which is the caller's `timeout_ms_in` when no timeout is read. -/
def json_action_and_timeout (jsmn_parse : jsmn_tokenizer) (payload : CStr)
    (timeout_ms_in : Int) : Option (CStr × Int) :=
  let r := jsmn_parse payload 64
  let ntok := r.1
  let toks := r.2
  if ntok < 1 ∨ (toks.head?).map jsmntok_t.type ≠ some jsmntype_t.JSMN_OBJECT then none
  else
    match json_get_string payload toks ntok "action".toList 32 with
    | none => none
    | some action =>
      match json_get_int payload toks ntok "timeout_ms".toList with
      | some tms => some (action, tms)
      | none => some (action, timeout_ms_in)

/-! ## The dispatcher -/

def error_bad_json : CStr :=
  "\x7b\"event\":\"error\",\"result\":\"fail\",\"error\":\"bad_json\"\x7d".toList

def error_unknown_action_json : CStr :=
  "\x7b\"event\":\"error\",\"result\":\"fail\",\"error\":\"unknown_action\"\x7d".toList

/-- The local `payload` of `msg_arrived_cb`: the first `MAX_JSON - 1` bytes
of the message, read as a C string (up to the first NUL). -/
def payload_copy (pl : List Char) : CStr :=
  (pl.take (MAX_JSON - 1)).takeWhile (fun c => c ≠ Char.ofNat 0)

/-- The callback `msg_arrived_cb` on a message whose payload bytes are `pl`. -/
def msg_arrived_cb (cfg : app_cfg_t) (w : World) (jsmn_parse : jsmn_tokenizer)
    (pl : List Char) (fuel : Nat) (s : Sys) : Option Sys :=
  let payload : CStr := payload_copy pl
  match json_action_and_timeout jsmn_parse payload 0 with
  | none => some (publish_json error_bad_json s)
  | some (action, tms) =>
    if action = "status".toList then some (send_status_event cfg w s)
    else if action = "scan".toList then some (handle_scan cfg w s)
    else if action = "test".toList then handle_test cfg w tms fuel s
    else some (publish_json error_unknown_action_json s)

/-! ## States and times the statements speak of -/

/-- The state after one enumeration. -/
def scanned (s : Sys) : Sys := { s with nscan := s.nscan + 1 }

/-- The state after the debounce sleep and the enumeration that follows it. -/
def rechecked (cfg : app_cfg_t) (w : World) (s : Sys) : Sys :=
  scanned (usleep w (cfg.test.debounce_ms * 1000) s)

/-- One pass of the `while` loop that finds no candidate: the enumeration and
the 50 ms sleep. -/
def quiet_pass (w : World) (s : Sys) : Sys := usleep w (50 * 1000) (scanned s)

/-- The state after `k` passes that find no candidate. -/
def quiet_run (w : World) : Nat → Sys → Sys
  | 0, s => s
  | k + 1, s => quiet_run w k (quiet_pass w s)

/-- The time the `k` poll sleeps from the `n`-th sleep of the run on take. -/
def idle_ms (w : World) (n k : Nat) : Nat :=
  (Finset.range k).sum (fun j => 50 + w.over (n + j))

/-! ## Concrete runs -/

/-- A configuration with no filters, the default timeout 10000 ms and the
debounce 100 ms. -/
def cfgA : app_cfg_t := ⟨⟨[], []⟩, ⟨10000, 100⟩⟩

/-- The state a run starts from. -/
def sys0 : Sys := ⟨0, 0, 0, []⟩

def devA : CStr := "01-aabbccddeeff".toList

/-- Scenario A: the bus is empty for the baseline and two polling passes, then
`01-aabbccddeeff` is attached and stays; sleeps are exact. -/
def worldA : World :=
  ⟨fun k => if k < 3 then some [".".toList, "..".toList]
            else some [".".toList, "..".toList, devA],
   fun _ => 0⟩

/-- A contact that flickers: the bus is empty at the baseline, the first
polling pass sees `01-aabbccddeeff`, the enumeration after the debounce sleep
does not, and from the second polling pass on the device stays; sleeps are
exact. -/
def worldF : World :=
  ⟨fun k => if k = 1 ∨ 3 ≤ k then some [".".toList, "..".toList, devA]
            else some [".".toList, "..".toList],
   fun _ => 0⟩

/-- Scenario B: `01-x` is attached from the start and nothing else ever
appears; sleeps are exact. -/
def worldB : World :=
  ⟨fun _ => some [".".toList, "..".toList, "01-x".toList], fun _ => 0⟩

/-- The largest value of `int`. -/
def INT_MAX : Int := 2147483647

/-- The devices directory can be read for the baseline only. -/
def worldE : World :=
  ⟨fun k => if k = 0 then some [".".toList, "..".toList] else none, fun _ => 0⟩

/-- A device is seen by the first polling pass, and the directory cannot be
read after the debounce sleep nor later. -/
def worldE2 : World :=
  ⟨fun k => if k = 0 then some [".".toList, "..".toList]
            else if k = 1 then some [".".toList, "..".toList, devA] else none,
   fun _ => 0⟩

/-- The devices directory cannot be read at all. -/
def worldC : World := ⟨fun _ => none, fun _ => 0⟩

/-- The visible part of the token array: `toks[0]` to `toks[ntok - 1]`. -/
def visible_toks (r : Int × List jsmntok_t) : List jsmntok_t := r.2.take r.1.toNat

/-! ## Concrete commands

The payloads below come with the tokens jsmn gives them: the object, then
each key (size 1) followed by its value (size 0), with the byte offsets of the
text between the quotes. -/

/-- The payload of scenario E, with no action. -/
def payloadE : CStr := "\x7b\"foo\":\"bar\"\x7d".toList

/-- An object whose keys are `foo` and `bar`; `action` is a value. -/
def payloadQ : CStr := "\x7b\"foo\":\"action\",\"bar\":\"x\"\x7d".toList

/-- A test command whose timeout is the string `2147483647`. -/
def payloadM : CStr :=
  "\x7b\"action\":\"test\",\"timeout_ms\":\"2147483647\"\x7d".toList

/-- A test command whose timeout is the JSON integer 100. -/
def payloadN : CStr := "\x7b\"action\":\"test\",\"timeout_ms\":100\x7d".toList

/-- A command with an action the dispatcher does not know. -/
def payloadU : CStr := "\x7b\"action\":\"reboot\"\x7d".toList

/-- A test command with no timeout. -/
def payloadZ : CStr := "\x7b\"action\":\"test\"\x7d".toList

/-- The tokens of the payloads above; any other text is reported as invalid
(`JSMN_ERROR_INVAL`). -/
def jsmn_table : jsmn_tokenizer := fun js _ =>
  if js = payloadE then
    (3, [⟨.JSMN_OBJECT, 0, 13, 1⟩, ⟨.JSMN_STRING, 2, 5, 1⟩, ⟨.JSMN_STRING, 8, 11, 0⟩])
  else if js = payloadQ then
    (5, [⟨.JSMN_OBJECT, 0, 26, 2⟩, ⟨.JSMN_STRING, 2, 5, 1⟩, ⟨.JSMN_STRING, 8, 14, 0⟩,
         ⟨.JSMN_STRING, 17, 20, 1⟩, ⟨.JSMN_STRING, 23, 24, 0⟩])
  else if js = payloadM then
    (5, [⟨.JSMN_OBJECT, 0, 43, 2⟩, ⟨.JSMN_STRING, 2, 8, 1⟩, ⟨.JSMN_STRING, 11, 15, 0⟩,
         ⟨.JSMN_STRING, 18, 28, 1⟩, ⟨.JSMN_STRING, 31, 41, 0⟩])
  else if js = payloadN then
    (5, [⟨.JSMN_OBJECT, 0, 34, 2⟩, ⟨.JSMN_STRING, 2, 8, 1⟩, ⟨.JSMN_STRING, 11, 15, 0⟩,
         ⟨.JSMN_STRING, 18, 28, 1⟩, ⟨.JSMN_PRIMITIVE, 30, 33, 0⟩])
  else if js = payloadU then
    (3, [⟨.JSMN_OBJECT, 0, 19, 1⟩, ⟨.JSMN_STRING, 2, 8, 1⟩, ⟨.JSMN_STRING, 11, 17, 0⟩])
  else if js = payloadZ then
    (3, [⟨.JSMN_OBJECT, 0, 17, 1⟩, ⟨.JSMN_STRING, 2, 8, 1⟩, ⟨.JSMN_STRING, 11, 15, 0⟩])
  else (-2, [])

/-- A configuration with no filters, the default timeout 300 ms and the
debounce 100 ms. -/
def cfgS : app_cfg_t := ⟨⟨[], []⟩, ⟨300, 100⟩⟩

/-! ## What the statements on enumeration speak of -/

/-- The three rules of the `readdir` loop on one source name: it does not
begin with `.`, it is not in the exclude-list, and it passes the family
filter. -/
def passes_filters (cfg : app_cfg_t) (d_name : CStr) : Bool :=
  !decide (d_name.head? = some '.') && !is_excluded cfg d_name && family_allowed cfg d_name

/-- A configuration whose exclude-list holds one name of 63 characters. -/
def cfgX : app_cfg_t := ⟨⟨[List.replicate 63 'a'], []⟩, ⟨10000, 100⟩⟩

/-- A configuration that allows the families `01` and `10` and excludes
`01-bad`. -/
def cfgF : app_cfg_t := ⟨⟨["01-bad".toList], ["01".toList, "10".toList]⟩, ⟨10000, 100⟩⟩

/-- A source listing for `cfgF`. -/
def namesF : List CStr :=
  [".".toList, "..".toList, "01-a".toList, "01-bad".toList, "28-c".toList, "1".toList,
   "10-b".toList, "w1_bus_master1".toList]

/-- Thirty-three device names `01-0`, `01-1`, ..., `01-32`. -/
def names33 : List CStr := (List.range 33).map (fun i => "01-".toList ++ Nat.toDigits 10 i)

/-! ## What the statements on the status event speak of -/

/-- The texts of a list joined with commas. -/
def comma_separated : List CStr → CStr
  | [] => []
  | [x] => x
  | x :: y :: rest => x ++ ",".toList ++ comma_separated (y :: rest)

/-- The status event the specification gives for a successful enumeration:
`{"event":"status","result":"pass","devices":["id_1",...,"id_n"]}`, the
identifiers in the order given, each between double quotes. -/
def status_pass_text (ids : List CStr) : CStr :=
  "\x7b\"event\":\"status\",\"result\":\"pass\",\"devices\":[".toList ++
    comma_separated (ids.map (fun id => "\"".toList ++ id ++ "\"".toList)) ++ "]\x7d".toList

/-- What the `for` loop of `send_status_event` appends from index `i` on. -/
def status_ids_text : List CStr → Nat → CStr
  | [], _ => []
  | id :: rest, i =>
    ((if i ≠ 0 then ",".toList else []) ++ "\"".toList ++ id ++ "\"".toList) ++
      status_ids_text rest (i + 1)

/-- Scenario D: the devices `01-a` and `10-b` are present; sleeps are exact. -/
def worldD : World :=
  ⟨fun _ => some [".".toList, "..".toList, "01-a".toList, "10-b".toList], fun _ => 0⟩

def payloadStatus : CStr := "\x7b\"action\":\"status\"\x7d".toList

def payloadScan : CStr := "\x7b\"action\":\"scan\"\x7d".toList

/-- The tokens jsmn gives the status and the scan command; any other text is
reported as invalid. -/
def jsmn_table2 : jsmn_tokenizer := fun js _ =>
  if js = payloadStatus then
    (3, [⟨.JSMN_OBJECT, 0, 19, 1⟩, ⟨.JSMN_STRING, 2, 8, 1⟩, ⟨.JSMN_STRING, 11, 17, 0⟩])
  else if js = payloadScan then
    (3, [⟨.JSMN_OBJECT, 0, 17, 1⟩, ⟨.JSMN_STRING, 2, 8, 1⟩, ⟨.JSMN_STRING, 11, 15, 0⟩])
  else (-2, [])

/-! ## What the statements on the confirmed device speak of -/

/-- The entries of a snapshot that are outside the baseline `B`: the
candidates, in snapshot order. Each costs one debounce sleep and one
enumeration. -/
def new_entries (B l : List CStr) : List CStr := l.filter (fun x => decide (x ∉ B))

def devB : CStr := "01-112233445566".toList

/-- Two devices appear at once: the first polling pass sees `devA` and `devB`,
the enumeration after the first debounce sleep sees `devB` only, and every
later one sees both; sleeps are exact. -/
def worldG : World :=
  ⟨fun k => if k = 0 then some [".".toList, "..".toList]
            else if k = 2 then some [".".toList, "..".toList, devB]
            else some [".".toList, "..".toList, devA, devB],
   fun _ => 0⟩

/-! ## Basic facts on enumeration results -/

theorem contains_length (arr : List CStr) (id : CStr) :
    contains arr (arr.length : Int) id = decide (id ∈ arr) := by
  unfold contains
  rw [Int.toNat_ofNat, List.take_length]
  by_cases h : id ∈ arr
  · simp only [h, decide_True, List.any_eq_true, decide_eq_true_eq]
    exact ⟨id, h, rfl⟩
  · simp only [h, decide_False]
    rw [Bool.eq_false_iff]
    intro hc
    simp only [List.any_eq_true, decide_eq_true_eq] at hc
    obtain ⟨a, ha, rfl⟩ := hc
    exact h ha

theorem list_w1_result_shape (cfg : app_cfg_t) (max : Int) (r : Option (List CStr)) :
    (r = none ∧ list_w1_result cfg max r = (-1, [])) ∨
    (r ≠ none ∧ (list_w1_result cfg max r).1 = ((list_w1_result cfg max r).2.length : Int)) := by
  cases r with
  | none => exact Or.inl ⟨rfl, rfl⟩
  | some names => exact Or.inr ⟨by simp, rfl⟩

theorem snapshot_shape (cfg : app_cfg_t) (w : World) (k : Nat) :
    (w.readdir k = none ∧ snapshot cfg w k = (-1, [])) ∨
    (w.readdir k ≠ none ∧ (snapshot cfg w k).1 = ((snapshot cfg w k).2.length : Int)) :=
  list_w1_result_shape cfg MAX_DEVICES (w.readdir k)

theorem list_w1_devices_eq (cfg : app_cfg_t) (w : World) (s : Sys) :
    list_w1_devices cfg w MAX_DEVICES s = (snapshot cfg w s.nscan, scanned s) := rfl

theorem snapshot_neg_iff (cfg : app_cfg_t) (w : World) (k : Nat) :
    (snapshot cfg w k).1 < 0 ↔ w.readdir k = none := by
  rcases snapshot_shape cfg w k with ⟨h, e⟩ | ⟨h, e⟩
  · rw [e]; simp [h]
  · rw [e]; simp [h]

theorem snapshot_take (cfg : app_cfg_t) (w : World) (k : Nat) :
    (snapshot cfg w k).2.take (snapshot cfg w k).1.toNat = (snapshot cfg w k).2 := by
  rcases snapshot_shape cfg w k with ⟨_, e⟩ | ⟨_, e⟩
  · rw [e]; rfl
  · rw [e, Int.toNat_ofNat, List.take_length]

theorem snapshot_confirm (cfg : app_cfg_t) (w : World) (k : Nat) (id : CStr) :
    (decide ((snapshot cfg w k).1 > 0) && contains (snapshot cfg w k).2 (snapshot cfg w k).1 id)
      = decide (id ∈ (snapshot cfg w k).2) := by
  rcases snapshot_shape cfg w k with ⟨_, e⟩ | ⟨_, e⟩
  · rw [e]; simp
  · rw [e, contains_length]
    by_cases h : id ∈ (snapshot cfg w k).2
    · have hpos : 0 < (snapshot cfg w k).2.length := List.length_pos_of_mem h
      simp [h, hpos]
    · simp [h]

theorem debounce_loop_cons (cfg : app_cfg_t) (w : World) (B : List CStr) (t0 : Nat)
    (id : CStr) (rest : List CStr) (s : Sys) :
    debounce_loop cfg w B (B.length : Int) t0 (id :: rest) s =
      if id ∈ B then debounce_loop cfg w B (B.length : Int) t0 rest s
      else if id ∈ (snapshot cfg w s.nscan).2 then
        (publish_json (test_pass_json id (unsigned_cast ((rechecked cfg w s).clock - t0)))
          (rechecked cfg w s), true)
      else debounce_loop cfg w B (B.length : Int) t0 rest (rechecked cfg w s) := by
  rw [debounce_loop]
  simp only [contains_length, list_w1_devices_eq]
  have hk : (usleep w (cfg.test.debounce_ms * 1000) s).nscan = s.nscan := rfl
  simp only [hk, snapshot_confirm]
  by_cases h1 : id ∈ B
  · simp [h1]
  · by_cases h2 : id ∈ (snapshot cfg w s.nscan).2
    · simp [h1, h2, rechecked, now_ms, scanned]
    · simp [h1, h2, rechecked]

theorem poll_loop_succ (cfg : app_cfg_t) (w : World) (B : List CStr) (t0 : Nat) (T : Int)
    (fuel : Nat) (s : Sys) :
    poll_loop cfg w B (B.length : Int) t0 T (fuel + 1) s =
      if int_cast (s.clock - t0) < T then
        if (debounce_loop cfg w B (B.length : Int) t0 (snapshot cfg w s.nscan).2 (scanned s)).2
        then some (debounce_loop cfg w B (B.length : Int) t0 (snapshot cfg w s.nscan).2
          (scanned s)).1
        else poll_loop cfg w B (B.length : Int) t0 T fuel
          (usleep w (50 * 1000)
            (debounce_loop cfg w B (B.length : Int) t0 (snapshot cfg w s.nscan).2 (scanned s)).1)
      else some (publish_json (test_timeout_json (unsigned_cast (s.clock - t0))) s) := by
  rw [poll_loop]
  simp only [list_w1_devices_eq, now_ms, snapshot_take]
  by_cases hT : int_cast (s.clock - t0) < T
  · simp only [hT, if_true]
    by_cases hn : (snapshot cfg w s.nscan).1 > 0
    · simp only [hn, if_true]
    · have he : (snapshot cfg w s.nscan).2 = [] := by
        rcases snapshot_shape cfg w s.nscan with ⟨_, e⟩ | ⟨_, e⟩
        · rw [e]
        · rw [e] at hn
          simp only [gt_iff_lt, Nat.cast_pos, not_lt, Nat.le_zero_eq] at hn
          exact List.length_eq_zero.mp hn
      simp only [hn, if_false, he, debounce_loop]
  · simp only [hT, if_false]

theorem handle_test_eq (cfg : app_cfg_t) (w : World) (timeout_ms : Int) (fuel : Nat) (s : Sys) :
    handle_test cfg w timeout_ms fuel s =
      if w.readdir s.nscan = none then some (publish_json test_w1_read_json (scanned s))
      else poll_loop cfg w (snapshot cfg w s.nscan).2 ((snapshot cfg w s.nscan).2.length : Int)
        s.clock (effective_timeout cfg timeout_ms) fuel (scanned s) := by
  unfold handle_test
  simp only [list_w1_devices_eq, snapshot_neg_iff, now_ms]
  rcases snapshot_shape cfg w s.nscan with ⟨h, _⟩ | ⟨h, e⟩
  · simp [h]
  · simp only [h, if_false, e]
    rfl

/-! ## Event texts are told apart by their result field -/

theorem take_append_left (n : Nat) (a b : CStr) (h : n ≤ a.length) :
    (a ++ b).take n = a.take n := by
  rw [List.take_append_of_le_length h]

theorem test_pass_ne_timeout (d : CStr) (e e' : Nat) :
    test_pass_json d e ≠ test_timeout_json e' := by
  intro h
  have h2 := congrArg (fun l => l.take 27) h
  simp only [test_pass_json, test_timeout_json, snprintf, List.take_take,
    List.append_assoc] at h2
  rw [take_append_left _ _ _ (by decide), take_append_left _ _ _ (by decide)] at h2
  revert h2
  decide

theorem test_pass_ne_w1_read (d : CStr) (e : Nat) : test_pass_json d e ≠ test_w1_read_json := by
  intro h
  have h2 := congrArg (fun l => l.take 27) h
  simp only [test_pass_json, test_w1_read_json, snprintf, List.take_take,
    List.append_assoc] at h2
  rw [take_append_left _ _ _ (by decide)] at h2
  revert h2
  decide

theorem test_timeout_ne_w1_read (e : Nat) : test_timeout_json e ≠ test_w1_read_json := by
  intro h
  have h2 := congrArg (fun l => l.take 45) h
  simp only [test_timeout_json, test_w1_read_json, snprintf, List.take_take,
    List.append_assoc] at h2
  rw [take_append_left _ _ _ (by decide)] at h2
  revert h2
  decide

/-! ## Polling passes that find nothing new -/

theorem quiet_pass_clock (w : World) (s : Sys) :
    (quiet_pass w s).clock = s.clock + 50 + w.over s.nsleep := by
  simp [quiet_pass, usleep, scanned]

theorem quiet_run_nscan (w : World) (k : Nat) (s : Sys) :
    (quiet_run w k s).nscan = s.nscan + k := by
  induction k generalizing s with
  | zero => rfl
  | succ k ih =>
    rw [quiet_run, ih]
    simp only [quiet_pass, usleep, scanned]
    omega

theorem quiet_run_out (w : World) (k : Nat) (s : Sys) : (quiet_run w k s).out = s.out := by
  induction k generalizing s with
  | zero => rfl
  | succ k ih =>
    rw [quiet_run, ih]
    rfl

theorem quiet_run_clock (w : World) (k : Nat) (s : Sys) :
    (quiet_run w k s).clock = s.clock + idle_ms w s.nsleep k := by
  induction k generalizing s with
  | zero => simp [quiet_run, idle_ms]
  | succ k ih =>
    rw [quiet_run, ih, quiet_pass_clock]
    have hn : (quiet_pass w s).nsleep = s.nsleep + 1 := rfl
    rw [hn]
    unfold idle_ms
    rw [Finset.sum_range_succ' _ k]
    have hsum : (Finset.range k).sum (fun j => 50 + w.over (s.nsleep + 1 + j))
        = (Finset.range k).sum (fun j => 50 + w.over (s.nsleep + (j + 1))) := by
      apply Finset.sum_congr rfl
      intro j _
      rw [Nat.add_assoc, Nat.add_comm 1 j]
    rw [hsum]
    simp only [Nat.add_zero]
    omega

theorem idle_ms_mono (w : World) (n : Nat) {j k : Nat} (h : j ≤ k) :
    idle_ms w n j ≤ idle_ms w n k := by
  unfold idle_ms
  exact Finset.sum_le_sum_of_subset (Finset.range_mono h)

theorem idle_ms_exact (w : World) (n k : Nat) (h : ∀ j, w.over j = 0) :
    idle_ms w n k = 50 * k := by
  unfold idle_ms
  simp [h, Nat.mul_comm]

theorem debounce_loop_known (cfg : app_cfg_t) (w : World) (B : List CStr) (t0 : Nat)
    (L : List CStr) (s : Sys) (h : ∀ x ∈ L, x ∈ B) :
    debounce_loop cfg w B (B.length : Int) t0 L s = (s, false) := by
  induction L with
  | nil => rfl
  | cons x rest ih =>
    rw [debounce_loop_cons, if_pos (h x (List.mem_cons_self x rest))]
    exact ih (fun y hy => h y (List.mem_cons_of_mem x hy))

theorem poll_loop_quiet_step (cfg : app_cfg_t) (w : World) (B : List CStr) (t0 : Nat)
    (T : Int) (fuel : Nat) (s : Sys) (hT : int_cast (s.clock - t0) < T)
    (h : ∀ x ∈ (snapshot cfg w s.nscan).2, x ∈ B) :
    poll_loop cfg w B (B.length : Int) t0 T (fuel + 1) s =
      poll_loop cfg w B (B.length : Int) t0 T fuel (quiet_pass w s) := by
  rw [poll_loop_succ, if_pos hT, debounce_loop_known cfg w B t0 _ _ h]
  rfl

theorem poll_loop_quiet_run (cfg : app_cfg_t) (w : World) (B : List CStr) (t0 : Nat)
    (T : Int) (fuel k : Nat) (s : Sys)
    (hT : ∀ j < k, int_cast ((quiet_run w j s).clock - t0) < T)
    (h : ∀ j < k, ∀ x ∈ (snapshot cfg w (s.nscan + j)).2, x ∈ B) :
    poll_loop cfg w B (B.length : Int) t0 T (fuel + k) s =
      poll_loop cfg w B (B.length : Int) t0 T fuel (quiet_run w k s) := by
  induction k generalizing s with
  | zero => rfl
  | succ k ih =>
    rw [← Nat.add_assoc, poll_loop_quiet_step cfg w B t0 T (fuel + k) s
      (hT 0 (Nat.succ_pos k)) (by simpa using h 0 (Nat.succ_pos k)), quiet_run]
    apply ih
    · intro j hj
      have := hT (j + 1) (Nat.succ_lt_succ hj)
      rwa [quiet_run] at this
    · intro j hj
      have := h (j + 1) (Nat.succ_lt_succ hj)
      have hn : (quiet_pass w s).nscan = s.nscan + 1 := rfl
      rw [hn, Nat.add_assoc, Nat.add_comm 1 j]
      exact this

theorem int_cast_lt_of_lt (x : Nat) (T : Int) (h : (x : Int) < T) : int_cast x < T := by
  unfold int_cast
  split <;> omega

theorem int_cast_small (x : Nat) (h : x < 2 ^ 31) : int_cast x = (x : Int) := by
  unfold int_cast
  have h1 : x % 2 ^ 32 = x := Nat.mod_eq_of_lt (by omega)
  rw [h1, if_pos h]

theorem debounce_loop_detect (cfg : app_cfg_t) (w : World) (B : List CStr) (t0 : Nat)
    (d : CStr) (L : List CStr) (s : Sys) (hL : ∀ x ∈ L, x ∈ B ∨ x = d) (hd : d ∈ L)
    (hdB : d ∉ B) (hc : d ∈ (snapshot cfg w s.nscan).2) :
    debounce_loop cfg w B (B.length : Int) t0 L s =
      (publish_json (test_pass_json d (unsigned_cast ((rechecked cfg w s).clock - t0)))
        (rechecked cfg w s), true) := by
  induction L with
  | nil => exact absurd hd (List.not_mem_nil d)
  | cons x rest ih =>
    rw [debounce_loop_cons]
    by_cases hx : x ∈ B
    · rw [if_pos hx]
      have hxd : x ≠ d := fun e => hdB (e ▸ hx)
      apply ih (fun y hy => hL y (List.mem_cons_of_mem x hy))
      rcases List.mem_cons.mp hd with e | e
      · exact absurd e.symm hxd
      · exact e
    · have hxd : x = d := (hL x (List.mem_cons_self x rest)).resolve_left hx
      subst hxd
      rw [if_neg hx, if_pos hc]

/-! ## C1: a newly attached device is detected -/

theorem handle_test_detects_aux (cfg : app_cfg_t) (w : World) (timeout_ms : Int) (s : Sys)
    (B : List CStr) (d : CStr) (k fuel : Nat)
    (hbase : snapshot cfg w s.nscan = ((B.length : Int), B))
    (hd : d ∉ B)
    (hquiet : ∀ j < k, ∀ x ∈ (snapshot cfg w (s.nscan + 1 + j)).2, x ∈ B)
    (hstart : (idle_ms w s.nsleep k : Int) < effective_timeout cfg timeout_ms)
    (hpass : ∀ x ∈ (snapshot cfg w (s.nscan + 1 + k)).2, x ∈ B ∨ x = d)
    (hthere : d ∈ (snapshot cfg w (s.nscan + 1 + k)).2)
    (hconfirm : d ∈ (snapshot cfg w (s.nscan + 1 + k + 1)).2)
    (hfuel : k < fuel) :
    handle_test cfg w timeout_ms fuel s =
      some (publish_json
        (test_pass_json d (unsigned_cast
          ((rechecked cfg w (scanned (quiet_run w k (scanned s)))).clock - s.clock)))
        (rechecked cfg w (scanned (quiet_run w k (scanned s))))) := by
  have hne : w.readdir s.nscan ≠ none := by
    intro hnone
    rcases snapshot_shape cfg w s.nscan with ⟨_, e⟩ | ⟨h, _⟩
    · rw [e] at hbase
      have := congrArg Prod.fst hbase
      simp only at this
      omega
    · exact h hnone
  have hB : (snapshot cfg w s.nscan).2 = B := by rw [hbase]
  obtain ⟨f, rfl⟩ : ∃ f, fuel = f + 1 + k := ⟨fuel - 1 - k, by omega⟩
  rw [handle_test_eq, if_neg hne, hB]
  have hclock : ∀ j, (quiet_run w j (scanned s)).clock - s.clock = idle_ms w s.nsleep j := by
    intro j
    rw [quiet_run_clock]
    show s.clock + idle_ms w s.nsleep j - s.clock = _
    omega
  rw [poll_loop_quiet_run cfg w B s.clock _ (f + 1) k (scanned s)]
  · rw [poll_loop_succ, if_pos, quiet_run_nscan]
    · have hn : (scanned s).nscan + k = s.nscan + 1 + k := rfl
      rw [hn]
      have hdet := debounce_loop_detect cfg w B s.clock d
        (snapshot cfg w (s.nscan + 1 + k)).2 (scanned (quiet_run w k (scanned s)))
        hpass hthere hd
        (by
          have : (scanned (quiet_run w k (scanned s))).nscan = s.nscan + 1 + k + 1 := by
            show (quiet_run w k (scanned s)).nscan + 1 = _
            rw [quiet_run_nscan]
            rfl
          rw [this]
          exact hconfirm)
      rw [hdet]
      rfl
    · rw [hclock]
      exact int_cast_lt_of_lt _ _ hstart
  · intro j hj
    rw [hclock]
    apply int_cast_lt_of_lt
    have := idle_ms_mono w s.nsleep (Nat.le_of_lt hj)
    omega
  · intro j hj
    exact hquiet j hj

theorem rechecked_out (cfg : app_cfg_t) (w : World) (s : Sys) :
    (rechecked cfg w s).out = s.out := rfl

theorem scanned_out (s : Sys) : (scanned s).out = s.out := rfl

/-- C1: `handle_test` detects a newly attached device. Let the baseline
enumeration return `B`, let `d` be outside `B`, let the first `k` polling
enumerations return nothing outside `B` (in particular when they equal `B`),
let the polling pass after them start before the effective timeout has
elapsed, and let every enumeration from that pass on (the one after the
debounce sleep included) return the entries of `B` and `d`. Then
`handle_test` returns, having published exactly one event: the test/pass
event for `d`, which is no timeout event. -/
theorem handle_test_detects (cfg : app_cfg_t) (w : World) (timeout_ms : Int) (s : Sys)
    (B : List CStr) (d : CStr) (k fuel : Nat)
    (hbase : snapshot cfg w s.nscan = ((B.length : Int), B))
    (hd : d ∉ B)
    (hquiet : ∀ j < k, ∀ x ∈ (snapshot cfg w (s.nscan + 1 + j)).2, x ∈ B)
    (hstart : (idle_ms w s.nsleep k : Int) < effective_timeout cfg timeout_ms)
    (hnew : ∀ m, s.nscan + 1 + k ≤ m → ∀ x, x ∈ (snapshot cfg w m).2 ↔ (x ∈ B ∨ x = d))
    (hfuel : k < fuel) :
    ∃ s' e, handle_test cfg w timeout_ms fuel s = some s' ∧
      s'.out = s.out ++ [test_pass_json d e] ∧
      e = unsigned_cast (s'.clock - s.clock) ∧
      (∀ e', test_pass_json d e ≠ test_timeout_json e') ∧
      test_pass_json d e ≠ test_w1_read_json := by
  refine ⟨_, _, handle_test_detects_aux cfg w timeout_ms s B d k fuel hbase hd hquiet hstart
    (fun x hx => (hnew _ (Nat.le_refl _) x).mp hx)
    ((hnew _ (Nat.le_refl _) d).mpr (Or.inr rfl))
    ((hnew _ (Nat.le_succ _) d).mpr (Or.inr rfl)) hfuel, ?_, rfl, ?_, ?_⟩
  · show (rechecked cfg w (scanned (quiet_run w k (scanned s)))).out ++ _ = _
    rw [rechecked_out, scanned_out, quiet_run_out, scanned_out]
    rfl
  · intro e'
    exact test_pass_ne_timeout d _ e'
  · exact test_pass_ne_w1_read d _

theorem snapshot_worldA_early (m : Nat) (h : m < 3) : snapshot cfgA worldA m = (0, []) := by
  have hr : worldA.readdir m = some [".".toList, "..".toList] := by
    show (if m < 3 then _ else _) = _
    rw [if_pos h]
  unfold snapshot
  rw [hr]
  decide

theorem snapshot_worldA_late (m : Nat) (h : 3 ≤ m) : snapshot cfgA worldA m = (1, [devA]) := by
  have hr : worldA.readdir m = some [".".toList, "..".toList, devA] := by
    show (if m < 3 then _ else _) = _
    rw [if_neg (by omega)]
  unfold snapshot
  rw [hr]
  decide

/-- Witness of C1, scenario A: empty baseline, `01-aabbccddeeff` attached
before the third polling pass, timeout 10000 ms. -/
theorem handle_test_detects_witness :
    ∃ s' e, handle_test cfgA worldA 10000 3 sys0 = some s' ∧
      s'.out = sys0.out ++ [test_pass_json devA e] ∧
      e = unsigned_cast (s'.clock - sys0.clock) ∧
      (∀ e', test_pass_json devA e ≠ test_timeout_json e') ∧
      test_pass_json devA e ≠ test_w1_read_json :=
  handle_test_detects cfgA worldA 10000 sys0 [] devA 2 3
    (snapshot_worldA_early 0 (by decide))
    (by simp)
    (fun j hj x hx => by
      rw [snapshot_worldA_early (sys0.nscan + 1 + j) (by show 0 + 1 + j < 3; omega)] at hx
      exact hx)
    (by decide)
    (fun m hm x => by
      rw [snapshot_worldA_late m (by simpa using hm)]
      simp)
    (by decide)

/-! ## C2: the debounce re-check -/

theorem rechecked_nscan (cfg : app_cfg_t) (w : World) (s : Sys) :
    (rechecked cfg w s).nscan = s.nscan + 1 := rfl

theorem rechecked_clock_le (cfg : app_cfg_t) (w : World) (s : Sys) :
    s.clock ≤ (rechecked cfg w s).clock := by
  show s.clock ≤ s.clock + _ + _
  omega

theorem rechecked_nsleep (cfg : app_cfg_t) (w : World) (s : Sys) :
    (rechecked cfg w s).nsleep = s.nsleep + 1 := rfl

theorem debounce_loop_spec (cfg : app_cfg_t) (w : World) (B : List CStr) (t0 : Nat)
    (L : List CStr) (s : Sys) :
    s.nscan ≤ (debounce_loop cfg w B (B.length : Int) t0 L s).1.nscan ∧
    s.clock ≤ (debounce_loop cfg w B (B.length : Int) t0 L s).1.clock ∧
    s.nsleep ≤ (debounce_loop cfg w B (B.length : Int) t0 L s).1.nsleep ∧
    ((debounce_loop cfg w B (B.length : Int) t0 L s).2 = false →
      (debounce_loop cfg w B (B.length : Int) t0 L s).1.out = s.out) ∧
    ((debounce_loop cfg w B (B.length : Int) t0 L s).2 = true →
      ∃ d, d ∈ L ∧ d ∉ B ∧
        s.nscan + 1 ≤ (debounce_loop cfg w B (B.length : Int) t0 L s).1.nscan ∧
        s.nsleep + 1 ≤ (debounce_loop cfg w B (B.length : Int) t0 L s).1.nsleep ∧
        d ∈ (snapshot cfg w
          ((debounce_loop cfg w B (B.length : Int) t0 L s).1.nscan - 1)).2 ∧
        (debounce_loop cfg w B (B.length : Int) t0 L s).1.out = s.out ++
          [test_pass_json d (unsigned_cast
            ((debounce_loop cfg w B (B.length : Int) t0 L s).1.clock - t0))]) := by
  induction L generalizing s with
  | nil =>
    refine ⟨Nat.le_refl _, Nat.le_refl _, Nat.le_refl _, fun _ => rfl, fun h => ?_⟩
    exact absurd h (by simp [debounce_loop])
  | cons x rest ih =>
    rw [debounce_loop_cons]
    by_cases hx : x ∈ B
    · rw [if_pos hx]
      obtain ⟨h1, h2, h3, h4, h5⟩ := ih s
      refine ⟨h1, h2, h3, h4, fun h => ?_⟩
      obtain ⟨d, hd, rest5⟩ := h5 h
      exact ⟨d, List.mem_cons_of_mem x hd, rest5⟩
    · rw [if_neg hx]
      by_cases hc : x ∈ (snapshot cfg w s.nscan).2
      · rw [if_pos hc]
        refine ⟨?_, ?_, ?_, fun h => absurd h (by simp), fun _ => ?_⟩
        · show s.nscan ≤ s.nscan + 1
          omega
        · exact rechecked_clock_le cfg w s
        · show s.nsleep ≤ s.nsleep + 1
          omega
        · refine ⟨x, List.mem_cons_self x rest, hx, Nat.le_refl _, Nat.le_refl _, ?_, rfl⟩
          show x ∈ (snapshot cfg w (s.nscan + 1 - 1)).2
          rw [Nat.add_sub_cancel]
          exact hc
      · rw [if_neg hc]
        obtain ⟨h1, h2, h3, h4, h5⟩ := ih (rechecked cfg w s)
        rw [rechecked_nscan] at h1 h5
        rw [rechecked_nsleep] at h3 h5
        have hcl := rechecked_clock_le cfg w s
        refine ⟨by omega, by omega, by omega, fun h => ?_, fun h => ?_⟩
        · rw [h4 h]
          rfl
        · obtain ⟨d, hd, hdB, hn, hsl, hmem, hout⟩ := h5 h
          refine ⟨d, List.mem_cons_of_mem x hd, hdB, by omega, by omega, hmem, ?_⟩
          rw [hout]
          rfl

theorem poll_loop_spec (cfg : app_cfg_t) (w : World) (B : List CStr) (t0 : Nat) (T : Int)
    (fuel : Nat) (s s' : Sys)
    (h : poll_loop cfg w B (B.length : Int) t0 T fuel s = some s') :
    (s'.out = s.out ++ [test_timeout_json (unsigned_cast (s'.clock - t0))] ∧
      T ≤ int_cast (s'.clock - t0)) ∨
    (∃ d, d ∉ B ∧ s.nscan + 2 ≤ s'.nscan ∧ s.nsleep + 1 ≤ s'.nsleep ∧
      d ∈ (snapshot cfg w (s'.nscan - 1)).2 ∧
      s'.out = s.out ++ [test_pass_json d (unsigned_cast (s'.clock - t0))]) := by
  induction fuel generalizing s with
  | zero => simp [poll_loop] at h
  | succ fuel ih =>
    rw [poll_loop_succ] at h
    by_cases hT : int_cast (s.clock - t0) < T
    · rw [if_pos hT] at h
      obtain ⟨h1, _, h3, h4, h5⟩ :=
        debounce_loop_spec cfg w B t0 (snapshot cfg w s.nscan).2 (scanned s)
      have hsc : (scanned s).nscan = s.nscan + 1 := rfl
      have hsl : (scanned s).nsleep = s.nsleep := rfl
      rw [hsc] at h1 h5
      rw [hsl] at h3 h5
      by_cases hb :
          (debounce_loop cfg w B (B.length : Int) t0 (snapshot cfg w s.nscan).2 (scanned s)).2
            = true
      · rw [if_pos hb] at h
        have he := Option.some.inj h
        obtain ⟨d, _, hdB, hn, hs, hmem, hout⟩ := h5 hb
        rw [he] at hn hs hmem hout
        exact Or.inr ⟨d, hdB, by omega, by omega, hmem, hout⟩
      · rw [if_neg hb] at h
        have hb2 := Bool.eq_false_iff.mpr hb
        rcases ih _ h with ⟨ho, hT2⟩ | ⟨d, hdB, hn, hs, hmem, hout⟩
        · left
          refine ⟨?_, hT2⟩
          rw [ho]
          show (debounce_loop cfg w B (B.length : Int) t0 (snapshot cfg w s.nscan).2
            (scanned s)).1.out ++ _ = _
          rw [h4 hb2]
          rfl
        · right
          refine ⟨d, hdB, ?_, ?_, hmem, ?_⟩
          · have : (usleep w (50 * 1000) (debounce_loop cfg w B (B.length : Int) t0
                (snapshot cfg w s.nscan).2 (scanned s)).1).nscan
                = (debounce_loop cfg w B (B.length : Int) t0
                (snapshot cfg w s.nscan).2 (scanned s)).1.nscan := rfl
            rw [this] at hn
            omega
          · have : (usleep w (50 * 1000) (debounce_loop cfg w B (B.length : Int) t0
                (snapshot cfg w s.nscan).2 (scanned s)).1).nsleep
                = (debounce_loop cfg w B (B.length : Int) t0
                (snapshot cfg w s.nscan).2 (scanned s)).1.nsleep + 1 := rfl
            rw [this] at hs
            omega
          · rw [hout]
            show (debounce_loop cfg w B (B.length : Int) t0 (snapshot cfg w s.nscan).2
              (scanned s)).1.out ++ _ = _
            rw [h4 hb2]
            rfl
    · rw [if_neg hT] at h
      have he := Option.some.inj h
      left
      rw [← he]
      exact ⟨rfl, not_lt.mp hT⟩

/-- Every run of `handle_test` that returns has published exactly one event:
the `w1_read` event when the baseline enumeration failed, else a timeout event
or the pass event of a device that is outside the baseline and in the last
enumeration of the run. -/
theorem handle_test_result (cfg : app_cfg_t) (w : World) (timeout_ms : Int) (fuel : Nat)
    (s s' : Sys) (h : handle_test cfg w timeout_ms fuel s = some s') :
    (w.readdir s.nscan = none ∧ s'.out = s.out ++ [test_w1_read_json]) ∨
    (s'.out = s.out ++ [test_timeout_json (unsigned_cast (s'.clock - s.clock))] ∧
      effective_timeout cfg timeout_ms ≤ int_cast (s'.clock - s.clock)) ∨
    (∃ d, d ∉ (snapshot cfg w s.nscan).2 ∧ s.nscan + 3 ≤ s'.nscan ∧
      s.nsleep + 1 ≤ s'.nsleep ∧
      d ∈ (snapshot cfg w (s'.nscan - 1)).2 ∧
      s'.out = s.out ++ [test_pass_json d (unsigned_cast (s'.clock - s.clock))]) := by
  rw [handle_test_eq] at h
  by_cases hr : w.readdir s.nscan = none
  · rw [if_pos hr] at h
    left
    refine ⟨hr, ?_⟩
    rw [← Option.some.inj h]
    rfl
  · rw [if_neg hr] at h
    right
    rcases poll_loop_spec cfg w _ _ _ _ _ _ h with ⟨ho, hT⟩ | ⟨d, hdB, hn, hs, hmem, hout⟩
    · left
      exact ⟨ho, hT⟩
    · right
      exact ⟨d, hdB, hn, hs, hmem, hout⟩

/-- C2: the debounce re-check of `handle_test`. In every run that returns,
exactly one event has been published, and a pass event is published for a
device `d` only if `d` is outside the baseline snapshot and in the fresh
enumeration made after the debounce sleep (the last enumeration of the run);
its `elapsed_ms`, like that of a timeout event and like the timeout check, is
measured from the start timestamp taken after the baseline. A candidate that
is absent from the enumeration after its debounce sleep publishes nothing:
the `for` loop goes on with the next entry, and the `while` loop with the next
pass, under the same baseline, the same `t0` and the same timeout. -/
theorem handle_test_debounce (cfg : app_cfg_t) (w : World) (timeout_ms : Int) (fuel : Nat)
    (s s' : Sys) (h : handle_test cfg w timeout_ms fuel s = some s') :
    ((w.readdir s.nscan = none ∧ s'.out = s.out ++ [test_w1_read_json]) ∨
     (s'.out = s.out ++ [test_timeout_json (unsigned_cast (s'.clock - s.clock))] ∧
       effective_timeout cfg timeout_ms ≤ int_cast (s'.clock - s.clock)) ∨
     (∃ d, d ∉ (snapshot cfg w s.nscan).2 ∧ s.nscan + 3 ≤ s'.nscan ∧
       s.nsleep + 1 ≤ s'.nsleep ∧
       d ∈ (snapshot cfg w (s'.nscan - 1)).2 ∧
       s'.out = s.out ++ [test_pass_json d (unsigned_cast (s'.clock - s.clock))])) ∧
    (∀ (B : List CStr) (t0 : Nat) (T : Int) (id : CStr) (pre rest : List CStr) (f : Nat)
        (s1 : Sys),
      id ∉ B → (∀ x ∈ pre, x ∈ B) → id ∉ (snapshot cfg w (s1.nscan + 1)).2 →
      (snapshot cfg w s1.nscan).2 = pre ++ id :: rest →
      int_cast (s1.clock - t0) < T →
      (rechecked cfg w (scanned s1)).out = s1.out ∧
      debounce_loop cfg w B (B.length : Int) t0 (pre ++ id :: rest) (scanned s1) =
        debounce_loop cfg w B (B.length : Int) t0 rest (rechecked cfg w (scanned s1)) ∧
      poll_loop cfg w B (B.length : Int) t0 T (f + 1) s1 =
        if (debounce_loop cfg w B (B.length : Int) t0 rest (rechecked cfg w (scanned s1))).2
        then some
          (debounce_loop cfg w B (B.length : Int) t0 rest (rechecked cfg w (scanned s1))).1
        else poll_loop cfg w B (B.length : Int) t0 T f
          (usleep w (50 * 1000)
            (debounce_loop cfg w B (B.length : Int) t0 rest
              (rechecked cfg w (scanned s1))).1)) := by
  constructor
  · exact handle_test_result cfg w timeout_ms fuel s s' h
  · intro B t0 T id pre rest f s1 hid hpre hgone hsnap hT
    have hstep : debounce_loop cfg w B (B.length : Int) t0 (pre ++ id :: rest) (scanned s1) =
        debounce_loop cfg w B (B.length : Int) t0 rest (rechecked cfg w (scanned s1)) := by
      clear hsnap
      induction pre with
      | nil =>
        have hgone2 : id ∉ (snapshot cfg w (scanned s1).nscan).2 := hgone
        rw [List.nil_append, debounce_loop_cons, if_neg hid, if_neg hgone2]
      | cons x pre ih =>
        rw [List.cons_append, debounce_loop_cons, if_pos (hpre x (List.mem_cons_self x pre))]
        exact ih (fun y hy => hpre y (List.mem_cons_of_mem x hy))
    refine ⟨rfl, hstep, ?_⟩
    rw [poll_loop_succ, if_pos hT, hsnap, hstep]

theorem snapshot_worldF (m : Nat) :
    snapshot cfgA worldF m = if m = 1 ∨ 3 ≤ m then (1, [devA]) else (0, []) := by
  unfold snapshot
  show list_w1_result cfgA MAX_DEVICES (if m = 1 ∨ 3 ≤ m then _ else _) = _
  by_cases h : m = 1 ∨ 3 ≤ m
  · rw [if_pos h, if_pos h]
    decide
  · rw [if_neg h, if_neg h]
    decide

/-- Witness of C2: on a contact that flickers once, the run ends with the pass
event of the second check, 250 ms after the baseline. -/
theorem handle_test_debounce_witness :
    handle_test cfgA worldF 10000 5 sys0 = some ⟨250, 5, 3, [test_pass_json devA 250]⟩ ∧
    devA ∈ (snapshot cfgA worldF 1).2 ∧ devA ∉ (snapshot cfgA worldF 2).2 ∧
    (∃ d, d ∉ (snapshot cfgA worldF 0).2 ∧ d ∈ (snapshot cfgA worldF 4).2 ∧
      [test_pass_json devA 250] = [test_pass_json d (unsigned_cast (250 - 0))]) ∧
    poll_loop cfgA worldF [] 0 0 10000 (3 + 1) ⟨0, 1, 0, []⟩ =
      poll_loop cfgA worldF [] 0 0 10000 3 ⟨150, 3, 2, []⟩ := by
  have hrun : handle_test cfgA worldF 10000 5 sys0
      = some ⟨250, 5, 3, [test_pass_json devA 250]⟩ := by decide
  have hall := handle_test_debounce cfgA worldF 10000 5 sys0 _ hrun
  refine ⟨hrun, by decide, by decide, ?_, ?_⟩
  · rcases hall.1 with h | h | h
    · exact absurd h.1 (by decide)
    · exact absurd h.1 (by decide)
    · obtain ⟨d, h0, _, _, h4, hout⟩ := h
      exact ⟨d, h0, h4, hout⟩
  · have h2 := (hall.2 [] 0 10000 devA [] [] 3 ⟨0, 1, 0, []⟩ (by simp) (by simp)
      (by decide) (by decide) (by decide)).2.2
    exact h2.trans (by decide)

/-! ## C3: the timeout -/

/-- A run in which nothing new ever appears, on an exact clock and with an
effective timeout `T` of at most 2147483600 ms: `handle_test` returns after
the first pass boundary at or after `T`, having published exactly one event,
the timeout event, whose `elapsed_ms` is in `[T, T + 50)`. -/
theorem handle_test_times_out_in_range (cfg : app_cfg_t) (w : World) (timeout_ms : Int)
    (s : Sys) (B : List CStr)
    (hbase : snapshot cfg w s.nscan = ((B.length : Int), B))
    (hquiet : ∀ m, s.nscan < m → ∀ x ∈ (snapshot cfg w m).2, x ∈ B)
    (hexact : ∀ j, w.over j = 0)
    (hpos : 0 < effective_timeout cfg timeout_ms)
    (hrange : effective_timeout cfg timeout_ms ≤ 2147483600)
    (hdeb : 0 ≤ cfg.test.debounce_ms) :
    ∃ fuel s' e, handle_test cfg w timeout_ms fuel s = some s' ∧
      s'.out = s.out ++ [test_timeout_json e] ∧
      effective_timeout cfg timeout_ms ≤ (e : Int) ∧
      (e : Int) < effective_timeout cfg timeout_ms + 50 + cfg.test.debounce_ms ∧
      s'.clock = s.clock + e := by
  have hne : w.readdir s.nscan ≠ none := by
    intro hnone
    rcases snapshot_shape cfg w s.nscan with ⟨_, e⟩ | ⟨h, _⟩
    · rw [e] at hbase
      have := congrArg Prod.fst hbase
      simp only at this
      omega
    · exact h hnone
  have hB : (snapshot cfg w s.nscan).2 = B := by rw [hbase]
  obtain ⟨n, hn⟩ : ∃ n : Nat, effective_timeout cfg timeout_ms = (n : Int) :=
    ⟨(effective_timeout cfg timeout_ms).toNat, by omega⟩
  have hclock : ∀ j, (quiet_run w j (scanned s)).clock - s.clock = 50 * j := by
    intro j
    rw [quiet_run_clock, idle_ms_exact w _ _ hexact]
    show s.clock + 50 * j - s.clock = _
    omega
  have hu : unsigned_cast (50 * ((n + 49) / 50)) = 50 * ((n + 49) / 50) := by
    unfold unsigned_cast
    omega
  have hrun : handle_test cfg w timeout_ms (1 + (n + 49) / 50) s =
      some (publish_json (test_timeout_json (50 * ((n + 49) / 50)))
        (quiet_run w ((n + 49) / 50) (scanned s))) := by
    rw [handle_test_eq, if_neg hne, hB,
      poll_loop_quiet_run cfg w B s.clock _ 1 ((n + 49) / 50) (scanned s)]
    · rw [poll_loop_succ, if_neg, hclock, hu]
      rw [hclock, int_cast_small _ (by omega)]
      omega
    · intro j hj
      rw [hclock]
      apply int_cast_lt_of_lt
      omega
    · intro j hj
      apply hquiet
      show s.nscan < s.nscan + 1 + j
      omega
  refine ⟨1 + (n + 49) / 50, _, 50 * ((n + 49) / 50), hrun, ?_, ?_, ?_, ?_⟩
  · show (quiet_run w ((n + 49) / 50) (scanned s)).out ++ _ = _
    rw [quiet_run_out, scanned_out]
  · omega
  · omega
  · show (quiet_run w ((n + 49) / 50) (scanned s)).clock = _
    rw [quiet_run_clock, idle_ms_exact w _ _ hexact]
    rfl

theorem snapshot_worldB (m : Nat) : snapshot cfgA worldB m = (1, ["01-x".toList]) := by
  unfold snapshot
  show list_w1_result cfgA MAX_DEVICES (some [".".toList, "..".toList, "01-x".toList]) = _
  decide

theorem handle_test_times_out_in_range_witness :
    ∃ fuel s' e, handle_test cfgA worldB 200 fuel sys0 = some s' ∧
      s'.out = sys0.out ++ [test_timeout_json e] ∧
      effective_timeout cfgA 200 ≤ (e : Int) ∧
      (e : Int) < effective_timeout cfgA 200 + 50 + cfgA.test.debounce_ms ∧
      s'.clock = sys0.clock + e :=
  handle_test_times_out_in_range cfgA worldB 200 sys0 ["01-x".toList] (by decide)
    (fun m _ x hx => by
      rw [snapshot_worldB m] at hx
      exact hx)
    (fun _ => rfl) (by decide) (by decide) (by decide)

theorem poll_loop_quiet_forever (cfg : app_cfg_t) (w : World) (B : List CStr) (t0 : Nat)
    (T : Int) (s : Sys)
    (hT : ∀ j, int_cast ((quiet_run w j s).clock - t0) < T)
    (h : ∀ j, ∀ x ∈ (snapshot cfg w (s.nscan + j)).2, x ∈ B) (fuel : Nat) :
    poll_loop cfg w B (B.length : Int) t0 T fuel s = none := by
  have := poll_loop_quiet_run cfg w B t0 T 0 fuel s (fun j _ => hT j) (fun j _ => h j)
  rw [Nat.zero_add] at this
  rw [this]
  rfl

theorem int_cast_fifty_lt_int_max (j : Nat) : int_cast (50 * j) < INT_MAX := by
  unfold int_cast INT_MAX
  split <;> omega

theorem hang_at_int_max (fuel : Nat) : handle_test cfgA worldB INT_MAX fuel sys0 = none := by
  rw [handle_test_eq]
  have hb : snapshot cfgA worldB sys0.nscan = (1, ["01-x".toList]) := by decide
  have hr : worldB.readdir sys0.nscan ≠ none := by decide
  rw [if_neg hr, hb]
  have he : effective_timeout cfgA INT_MAX = INT_MAX := by decide
  rw [he]
  apply poll_loop_quiet_forever cfgA worldB ["01-x".toList] sys0.clock INT_MAX (scanned sys0)
  · intro j
    rw [quiet_run_clock, idle_ms_exact worldB _ _ (fun _ => rfl)]
    have : (scanned sys0).clock + 50 * j - sys0.clock = 50 * j := by
      show 0 + 50 * j - 0 = 50 * j
      omega
    rw [this]
    exact int_cast_fifty_lt_int_max j
  · intro j x hx
    rw [snapshot_worldB] at hx
    exact hx

/-- C3, the code at the failing input: with the timeout `INT_MAX`, the device
`01-x` attached throughout and an exact clock, no amount of fuel lets
`handle_test` return. The elapsed time read at the head of the `while` loop is
a multiple of 50, its cast to `int` is never the odd number 2147483647, and so
it is less than the timeout at every pass. -/
theorem handle_test_int_max_hangs (fuel : Nat) :
    handle_test cfgA worldB INT_MAX fuel sys0 = none :=
  hang_at_int_max fuel

/-! ## C4: enumeration errors after the baseline -/

/-- C4, the code at the failing inputs. When the directory can be read for the
baseline only, `handle_test` with a timeout of 100 ms enumerates twice more
(both fail) and publishes the timeout event, no `w1_read` event. When the
enumeration after the debounce sleep fails, the candidate is dropped,
polling goes on and the run ends the same way. -/
theorem handle_test_polling_error_ignored :
    handle_test cfgA worldE 100 3 sys0 = some ⟨100, 3, 2, [test_timeout_json 100]⟩ ∧
    worldE.readdir 1 = none ∧
    handle_test cfgA worldE2 100 3 sys0 = some ⟨150, 3, 2, [test_timeout_json 150]⟩ ∧
    worldE2.readdir 2 = none ∧
    test_timeout_json 100 ≠ test_w1_read_json ∧ test_timeout_json 150 ≠ test_w1_read_json := by
  decide

/-! ## C5: failure of the baseline enumeration -/

/-- C5: when the baseline enumeration fails, `handle_test` returns, for every
timeout and with any fuel, after that one enumeration, without a sleep (the
clock has not moved), having published exactly one event, the test/fail event
with error `w1_read`. -/
theorem handle_test_baseline_failure (cfg : app_cfg_t) (w : World) (timeout_ms : Int)
    (fuel : Nat) (s : Sys) (hfail : w.readdir s.nscan = none) :
    handle_test cfg w timeout_ms fuel s =
      some ⟨s.clock, s.nscan + 1, s.nsleep, s.out ++ [test_w1_read_json]⟩ := by
  rw [handle_test_eq, if_pos hfail]
  rfl

/-- Witness of C5, scenario C: the directory cannot be read. -/
theorem handle_test_baseline_failure_witness :
    worldC.readdir sys0.nscan = none ∧
    handle_test cfgA worldC 10000 0 sys0 = some ⟨0, 1, 0, [test_w1_read_json]⟩ :=
  ⟨rfl, handle_test_baseline_failure cfgA worldC 10000 0 sys0 rfl⟩

/-! ## C6: one event per command -/

theorem send_status_event_out (cfg : app_cfg_t) (w : World) (s : Sys) :
    ∃ ev, send_status_event cfg w s =
      ⟨s.clock, s.nscan + 1, s.nsleep, s.out ++ [ev]⟩ := by
  unfold send_status_event
  simp only [list_w1_devices_eq]
  split
  · exact ⟨_, rfl⟩
  · exact ⟨_, rfl⟩

theorem handle_test_one_event (cfg : app_cfg_t) (w : World) (timeout_ms : Int) (fuel : Nat)
    (s s' : Sys) (h : handle_test cfg w timeout_ms fuel s = some s') :
    ∃ ev, s'.out = s.out ++ [ev] := by
  rw [handle_test_eq] at h
  by_cases hr : w.readdir s.nscan = none
  · rw [if_pos hr] at h
    rw [← Option.some.inj h]
    exact ⟨_, rfl⟩
  · rw [if_neg hr] at h
    rcases poll_loop_spec cfg w _ _ _ _ _ _ h with ⟨ho, _⟩ | ⟨d, _, _, _, _, hout⟩
    · exact ⟨_, ho⟩
    · exact ⟨_, hout⟩

theorem msg_arrived_cb_none (cfg : app_cfg_t) (w : World) (jsmn_parse : jsmn_tokenizer)
    (pl : List Char) (fuel : Nat) (s : Sys)
    (h : json_action_and_timeout jsmn_parse (payload_copy pl) 0 = none) :
    msg_arrived_cb cfg w jsmn_parse pl fuel s = some (publish_json error_bad_json s) := by
  unfold msg_arrived_cb
  simp only [h]

theorem msg_arrived_cb_some (cfg : app_cfg_t) (w : World) (jsmn_parse : jsmn_tokenizer)
    (pl : List Char) (fuel : Nat) (s : Sys) (action : CStr) (tms : Int)
    (h : json_action_and_timeout jsmn_parse (payload_copy pl) 0 = some (action, tms)) :
    msg_arrived_cb cfg w jsmn_parse pl fuel s =
      if action = "status".toList then some (send_status_event cfg w s)
      else if action = "scan".toList then some (handle_scan cfg w s)
      else if action = "test".toList then handle_test cfg w tms fuel s
      else some (publish_json error_unknown_action_json s) := by
  unfold msg_arrived_cb
  simp only [h]

/-- Whenever `msg_arrived_cb` returns, it has published exactly one event,
whatever the payload, the tokens, the enumeration results and the clock; and
on every branch but `test` it returns with any fuel. -/
theorem msg_arrived_cb_one_event (cfg : app_cfg_t) (w : World) (jsmn_parse : jsmn_tokenizer)
    (pl : List Char) (fuel : Nat) (s : Sys) :
    (∀ s', msg_arrived_cb cfg w jsmn_parse pl fuel s = some s' →
      ∃ ev, s'.out = s.out ++ [ev]) ∧
    ((∀ tms, json_action_and_timeout jsmn_parse (payload_copy pl) 0
        ≠ some ("test".toList, tms)) →
      ∃ s', msg_arrived_cb cfg w jsmn_parse pl fuel s = some s') := by
  cases hj : json_action_and_timeout jsmn_parse (payload_copy pl) 0 with
  | none =>
    rw [msg_arrived_cb_none cfg w jsmn_parse pl fuel s hj]
    refine ⟨fun s' h => ?_, fun _ => ⟨_, rfl⟩⟩
    rw [← Option.some.inj h]
    exact ⟨_, rfl⟩
  | some p =>
    obtain ⟨action, tms⟩ := p
    rw [msg_arrived_cb_some cfg w jsmn_parse pl fuel s action tms hj]
    by_cases h1 : action = "status".toList
    · rw [if_pos h1]
      obtain ⟨ev, hev⟩ := send_status_event_out cfg w s
      refine ⟨fun s' h => ?_, fun _ => ⟨_, rfl⟩⟩
      rw [← Option.some.inj h, hev]
      exact ⟨_, rfl⟩
    · rw [if_neg h1]
      by_cases h2 : action = "scan".toList
      · rw [if_pos h2]
        obtain ⟨ev, hev⟩ := send_status_event_out cfg w s
        refine ⟨fun s' h => ?_, fun _ => ⟨_, rfl⟩⟩
        rw [← Option.some.inj h]
        show ∃ ev, (send_status_event cfg w s).out = _
        rw [hev]
        exact ⟨_, rfl⟩
      · rw [if_neg h2]
        by_cases h3 : action = "test".toList
        · rw [if_pos h3]
          refine ⟨fun s' h => handle_test_one_event cfg w tms fuel s s' h, fun hno => ?_⟩
          exact absurd (by rw [h3]) (hno tms)
        · rw [if_neg h3]
          refine ⟨fun s' h => ?_, fun _ => ⟨_, rfl⟩⟩
          rw [← Option.some.inj h]
          exact ⟨_, rfl⟩

theorem payload_copy_M : payload_copy payloadM = payloadM := by decide

theorem decode_payloadM :
    json_action_and_timeout jsmn_table payloadM 0 = some ("test".toList, INT_MAX) := by
  decide

/-- C6, the code at the failing input: the command
`{"action":"test","timeout_ms":"2147483647"}` with `01-x` attached throughout
and an exact clock. The callback never returns, whatever the fuel, and so
publishes no event. -/
theorem msg_arrived_cb_int_max_hangs (fuel : Nat) :
    msg_arrived_cb cfgA worldB jsmn_table payloadM fuel sys0 = none := by
  rw [msg_arrived_cb_some cfgA worldB jsmn_table payloadM fuel sys0 "test".toList INT_MAX
    (by rw [payload_copy_M]; exact decode_payloadM),
    if_neg (by decide), if_neg (by decide), if_pos rfl]
  exact hang_at_int_max fuel

/-! ## C7: commands that are rejected as bad_json -/

theorem json_get_string_from_none_iff (js key : CStr) (outlen : Nat) (l : List jsmntok_t) :
    json_get_string_from js key outlen l = none ↔
      ∀ i t v, l[i]? = some t → l[i + 1]? = some v →
        ¬ (tok_is_key js t key = true ∧ v.type = jsmntype_t.JSMN_STRING) := by
  induction l with
  | nil => simp [json_get_string_from]
  | cons t tl ih =>
    cases tl with
    | nil => simp [json_get_string_from]
    | cons v rest =>
      rw [json_get_string_from]
      by_cases hc : (tok_is_key js t key && decide (v.type = jsmntype_t.JSMN_STRING)) = true
      · rw [if_pos hc]
        constructor
        · intro h
          exact absurd h (by simp)
        · intro h
          have := h 0 t v rfl (by simp)
          simp only [Bool.and_eq_true, decide_eq_true_eq] at hc
          exact absurd hc this
      · rw [if_neg hc, ih]
        constructor
        · intro h i a b ha hb
          cases i with
          | zero =>
            simp only [List.getElem?_cons_zero, Option.some.injEq, Nat.zero_add,
              List.getElem?_cons_succ] at ha hb
            subst ha
            subst hb
            simpa only [Bool.and_eq_true, decide_eq_true_eq] using hc
          | succ i =>
            simp only [List.getElem?_cons_succ] at ha
            rw [List.getElem?_cons_succ] at hb
            exact h i a b ha hb
        · intro h i a b ha hb
          apply h (i + 1) a b
          · simpa only [List.getElem?_cons_succ] using ha
          · simpa only [List.getElem?_cons_succ] using hb

theorem json_get_string_none_iff (js : CStr) (toks : List jsmntok_t) (ntok : Int)
    (key : CStr) (outlen : Nat) :
    json_get_string js toks ntok key outlen = none ↔
      ∀ i t v, 1 ≤ i → (visible_toks (ntok, toks))[i]? = some t →
        (visible_toks (ntok, toks))[i + 1]? = some v →
        ¬ (tok_is_key js t key = true ∧ v.type = jsmntype_t.JSMN_STRING) := by
  unfold json_get_string visible_toks
  rw [json_get_string_from_none_iff]
  simp only [List.getElem?_drop]
  constructor
  · intro h i t v hi ht hv
    obtain ⟨j, rfl⟩ : ∃ j, i = 1 + j := ⟨i - 1, by omega⟩
    apply h j t v ht
    rw [← hv]
    congr 1
  · intro h i t v ht hv
    apply h (1 + i) t v (by omega) ht
    rw [← hv]
    congr 1

theorem json_action_and_timeout_none_iff (jsmn_parse : jsmn_tokenizer) (payload : CStr)
    (tin : Int) :
    json_action_and_timeout jsmn_parse payload tin = none ↔
      ((jsmn_parse payload 64).1 < 1 ∨
        ((jsmn_parse payload 64).2.head?).map jsmntok_t.type ≠ some jsmntype_t.JSMN_OBJECT ∨
        ∀ i t v, 1 ≤ i → (visible_toks (jsmn_parse payload 64))[i]? = some t →
          (visible_toks (jsmn_parse payload 64))[i + 1]? = some v →
          ¬ (tok_is_key payload t "action".toList = true ∧
              v.type = jsmntype_t.JSMN_STRING)) := by
  unfold json_action_and_timeout
  simp only []
  by_cases hc : (jsmn_parse payload 64).1 < 1 ∨
      ((jsmn_parse payload 64).2.head?).map jsmntok_t.type ≠ some jsmntype_t.JSMN_OBJECT
  · rw [if_pos hc]
    simp only [true_iff]
    rcases hc with h | h
    · exact Or.inl h
    · exact Or.inr (Or.inl h)
  · rw [if_neg hc]
    have hiff := json_get_string_none_iff payload (jsmn_parse payload 64).2
      (jsmn_parse payload 64).1 "action".toList 32
    cases hg : json_get_string payload (jsmn_parse payload 64).2 (jsmn_parse payload 64).1
        "action".toList 32 with
    | none =>
      simp only [true_iff]
      exact Or.inr (Or.inr (hiff.mp hg))
    | some action =>
      have hne : ¬ (json_get_string payload (jsmn_parse payload 64).2
          (jsmn_parse payload 64).1 "action".toList 32 = none) := by
        rw [hg]
        simp
      constructor
      · intro h
        exfalso
        cases hi : json_get_int payload (jsmn_parse payload 64).2 (jsmn_parse payload 64).1
            "timeout_ms".toList with
        | none => rw [hi] at h; simp at h
        | some tms => rw [hi] at h; simp at h
      · intro h
        exfalso
        rcases h with h | h | h
        · exact hc (Or.inl h)
        · exact hc (Or.inr h)
        · exact hne (hiff.mpr h)

/-- C7, amended: a payload whose token stream is not a top-level object, or
in which no string token spelling `action` is directly followed by a string
token, is rejected: `json_action_and_timeout` returns 0 and `msg_arrived_cb`
returns, with any fuel, having published exactly the `bad_json` error event
and nothing else, without an enumeration or a sleep. -/
theorem bad_json_rejected (cfg : app_cfg_t) (w : World) (jsmn_parse : jsmn_tokenizer)
    (pl : List Char) (fuel : Nat) (s : Sys)
    (h : (jsmn_parse (payload_copy pl) 64).1 < 1 ∨
      ((jsmn_parse (payload_copy pl) 64).2.head?).map jsmntok_t.type
        ≠ some jsmntype_t.JSMN_OBJECT ∨
      ∀ i t v, 1 ≤ i → (visible_toks (jsmn_parse (payload_copy pl) 64))[i]? = some t →
        (visible_toks (jsmn_parse (payload_copy pl) 64))[i + 1]? = some v →
        ¬ (tok_is_key (payload_copy pl) t "action".toList = true ∧
            v.type = jsmntype_t.JSMN_STRING)) :
    json_action_and_timeout jsmn_parse (payload_copy pl) 0 = none ∧
    msg_arrived_cb cfg w jsmn_parse pl fuel s =
      some ⟨s.clock, s.nscan, s.nsleep, s.out ++ [error_bad_json]⟩ ∧
    error_bad_json =
      "\x7b\"event\":\"error\",\"result\":\"fail\",\"error\":\"bad_json\"\x7d".toList := by
  have hn := (json_action_and_timeout_none_iff jsmn_parse (payload_copy pl) 0).mpr h
  exact ⟨hn, msg_arrived_cb_none cfg w jsmn_parse pl fuel s hn, rfl⟩

/-- Witness of C7, scenario E: the payload `{"foo":"bar"}`. -/
theorem bad_json_rejected_witness :
    json_action_and_timeout jsmn_table (payload_copy payloadE) 0 = none ∧
    msg_arrived_cb cfgA worldB jsmn_table payloadE 0 sys0 =
      some ⟨sys0.clock, sys0.nscan, sys0.nsleep, sys0.out ++ [error_bad_json]⟩ ∧
    error_bad_json =
      "\x7b\"event\":\"error\",\"result\":\"fail\",\"error\":\"bad_json\"\x7d".toList :=
  bad_json_rejected cfgA worldB jsmn_table payloadE 0 sys0
    (Or.inr (Or.inr (fun i t v hi ht hv => by
      have hp : payload_copy payloadE = payloadE := by decide
      have hv3 : visible_toks (jsmn_table (payload_copy payloadE) 64) =
          [⟨.JSMN_OBJECT, 0, 13, 1⟩, ⟨.JSMN_STRING, 2, 5, 1⟩, ⟨.JSMN_STRING, 8, 11, 0⟩] := by
        decide
      rw [hv3] at ht hv
      rw [hp]
      match i, hi with
      | 1, _ =>
        simp only [List.getElem?_cons_succ, List.getElem?_cons_zero, Option.some.injEq] at ht
        subst ht
        intro hk
        exact absurd hk.1 (by decide)
      | i + 2, _ =>
        simp at hv)))

/-- C7 as stated fails: the object `{"foo":"action","bar":"x"}` has the keys
`foo` and `bar` and no key `action`, yet `json_action_and_timeout` returns 1
with the action `bar` (the token after the value `action`), and
`msg_arrived_cb` publishes the `unknown_action` event, not `bad_json`. -/
theorem bad_json_not_for_action_value :
    ((jsmn_table payloadQ 64).2.head?).map jsmntok_t.type = some jsmntype_t.JSMN_OBJECT ∧
    (∀ t ∈ visible_toks (jsmn_table payloadQ 64), t.size = 1 →
      tok_text payloadQ t ≠ "action".toList) ∧
    payload_copy payloadQ = payloadQ ∧
    json_action_and_timeout jsmn_table payloadQ 0 = some ("bar".toList, 0) ∧
    msg_arrived_cb cfgA worldB jsmn_table payloadQ 0 sys0 =
      some ⟨0, 0, 0, [error_unknown_action_json]⟩ ∧
    error_unknown_action_json ≠ error_bad_json := by
  decide

/-! ## C8: actions the dispatcher does not know -/

theorem tok_copy_short (js : CStr) (v : jsmntok_t) (a : CStr) (hs : v.start ≤ v.end_)
    (ha : a.length < 31) (h : tok_copy js v 32 = a) : tok_text js v = a := by
  unfold tok_copy at h
  unfold tok_text
  simp only [] at h
  by_cases hlen : v.end_ - v.start < 0 ∨ ((32 : Nat) : Int) ≤ v.end_ - v.start
  · rw [if_pos hlen] at h
    have h31 : (((32 : Nat) : Int) - 1).toNat = 31 := by decide
    rw [h31] at h
    have hl := congrArg List.length h
    rw [List.length_take] at hl
    have hd : (js.drop v.start.toNat).length < 31 := by omega
    have hbig : 31 ≤ (v.end_ - v.start).toNat := by omega
    rw [List.take_of_length_le (by omega)] at h
    rw [List.take_of_length_le (by omega)]
    exact h
  · rw [if_neg hlen] at h
    exact h

/-- C8: a payload that decodes to an action other than `status`, `scan` and
`test` (the empty action included) makes `msg_arrived_cb` return, with any
fuel, having published exactly one event, the `unknown_action` error event,
with no enumeration and no sleep. The decoder keeps at most 31 characters of
the action, and what it keeps of a token that does not spell one of the three
names is not one of them either. -/
theorem unknown_action_rejected (cfg : app_cfg_t) (w : World) (jsmn_parse : jsmn_tokenizer)
    (pl : List Char) (fuel : Nat) (s : Sys) (action : CStr) (tms : Int)
    (hdec : json_action_and_timeout jsmn_parse (payload_copy pl) 0 = some (action, tms))
    (h1 : action ≠ "status".toList) (h2 : action ≠ "scan".toList)
    (h3 : action ≠ "test".toList) :
    msg_arrived_cb cfg w jsmn_parse pl fuel s =
      some ⟨s.clock, s.nscan, s.nsleep, s.out ++ [error_unknown_action_json]⟩ ∧
    error_unknown_action_json =
      "\x7b\"event\":\"error\",\"result\":\"fail\",\"error\":\"unknown_action\"\x7d".toList ∧
    (∀ (js : CStr) (v : jsmntok_t), v.start ≤ v.end_ →
      tok_text js v ≠ "status".toList → tok_text js v ≠ "scan".toList →
      tok_text js v ≠ "test".toList →
      (tok_copy js v 32).length ≤ 31 ∧
      tok_copy js v 32 ≠ "status".toList ∧ tok_copy js v 32 ≠ "scan".toList ∧
      tok_copy js v 32 ≠ "test".toList) := by
  refine ⟨?_, rfl, ?_⟩
  · rw [msg_arrived_cb_some cfg w jsmn_parse pl fuel s action tms hdec,
      if_neg h1, if_neg h2, if_neg h3]
    rfl
  · intro js v hs t1 t2 t3
    refine ⟨?_, fun h => t1 (tok_copy_short js v _ hs (by decide) h),
      fun h => t2 (tok_copy_short js v _ hs (by decide) h),
      fun h => t3 (tok_copy_short js v _ hs (by decide) h)⟩
    unfold tok_copy
    simp only []
    rw [List.length_take]
    split <;> omega

/-- Witness of C8: the command `{"action":"reboot"}`. -/
theorem unknown_action_rejected_witness :
    json_action_and_timeout jsmn_table (payload_copy payloadU) 0
      = some ("reboot".toList, 0) ∧
    msg_arrived_cb cfgA worldB jsmn_table payloadU 0 sys0 =
      some ⟨0, 0, 0, [error_unknown_action_json]⟩ :=
  ⟨by decide,
   (unknown_action_rejected cfgA worldB jsmn_table payloadU 0 sys0 "reboot".toList 0
      (by decide) (by decide) (by decide) (by decide)).1⟩

/-! ## C9: the timeout of the request -/

/-- C9, the code at the failing input: in `{"action":"test","timeout_ms":100}`
the timeout is a number token, `json_get_int` reads string tokens only, and
`json_action_and_timeout` leaves the timeout at 0. With the configured default
300 ms and nothing new on the bus, `msg_arrived_cb` runs the test for 300 ms,
as `handle_test(0)` does, and not for the 100 ms of the request. -/
theorem json_timeout_number_ignored :
    payload_copy payloadN = payloadN ∧
    (visible_toks (jsmn_table payloadN 64)).map (fun t => (t.type, tok_text payloadN t)) =
      [(.JSMN_OBJECT, payloadN), (.JSMN_STRING, "action".toList),
       (.JSMN_STRING, "test".toList), (.JSMN_STRING, "timeout_ms".toList),
       (.JSMN_PRIMITIVE, "100".toList)] ∧
    json_get_int payloadN (jsmn_table payloadN 64).2 (jsmn_table payloadN 64).1
      "timeout_ms".toList = none ∧
    json_action_and_timeout jsmn_table payloadN 0 = some ("test".toList, 0) ∧
    msg_arrived_cb cfgS worldB jsmn_table payloadN 7 sys0 =
      some ⟨300, 7, 6, [test_timeout_json 300]⟩ ∧
    msg_arrived_cb cfgS worldB jsmn_table payloadN 7 sys0 = handle_test cfgS worldB 0 7 sys0 ∧
    handle_test cfgS worldB 100 7 sys0 = some ⟨100, 3, 2, [test_timeout_json 100]⟩ := by
  decide

/-! ## C10: the effective timeout -/

/-- C10: for every integer argument `t`, `handle_test` runs its polling loop
with the timeout `t` when `t > 0` and with `CFG.test.default_timeout_ms` when
`t <= 0`; a call with `t <= 0` is the call with the configured default, so a
timeout event of such a call is published only once the elapsed time has
reached the default; and a command in which no timeout is read hands 0 to
`handle_test`. -/
theorem handle_test_effective_timeout (cfg : app_cfg_t) (w : World) (t : Int) (fuel : Nat)
    (s : Sys) :
    handle_test cfg w t fuel s =
      (if w.readdir s.nscan = none then some (publish_json test_w1_read_json (scanned s))
       else poll_loop cfg w (snapshot cfg w s.nscan).2
         ((snapshot cfg w s.nscan).2.length : Int) s.clock
         (if 0 < t then t else cfg.test.default_timeout_ms) fuel (scanned s)) ∧
    (t ≤ 0 → handle_test cfg w t fuel s
      = handle_test cfg w cfg.test.default_timeout_ms fuel s) ∧
    (t ≤ 0 → ∀ s' e, handle_test cfg w t fuel s = some s' →
      s'.out = s.out ++ [test_timeout_json e] →
      cfg.test.default_timeout_ms ≤ int_cast (s'.clock - s.clock)) ∧
    (∀ (jsmn_parse : jsmn_tokenizer) (pl : List Char) (action : CStr) (tms : Int),
      json_get_int (payload_copy pl) (jsmn_parse (payload_copy pl) 64).2
        (jsmn_parse (payload_copy pl) 64).1 "timeout_ms".toList = none →
      json_action_and_timeout jsmn_parse (payload_copy pl) 0 = some (action, tms) →
      tms = 0 ∧ (action = "test".toList →
        msg_arrived_cb cfg w jsmn_parse pl fuel s = handle_test cfg w 0 fuel s)) := by
  have heff : effective_timeout cfg t = if 0 < t then t else cfg.test.default_timeout_ms := by
    unfold effective_timeout
    by_cases h : t ≤ 0
    · rw [if_pos h, if_neg (by omega)]
    · rw [if_neg h, if_pos (by omega)]
  have hle : t ≤ 0 → effective_timeout cfg t = cfg.test.default_timeout_ms := by
    intro h
    rw [heff, if_neg (by omega)]
  refine ⟨?_, ?_, ?_, ?_⟩
  · rw [handle_test_eq, heff]
  · intro h
    rw [handle_test_eq, handle_test_eq, hle h]
    congr 1
    unfold effective_timeout
    split <;> rfl
  · intro h s' e hrun hout
    rcases handle_test_result cfg w t fuel s s' hrun with ⟨_, ho⟩ | ⟨_, hT⟩ | ⟨d, _, _, _, _, ho⟩
    · rw [ho] at hout
      have := List.append_cancel_left hout
      simp only [List.cons.injEq, and_true] at this
      exact absurd this.symm (test_timeout_ne_w1_read e)
    · rw [hle h] at hT
      exact hT
    · rw [ho] at hout
      have := List.append_cancel_left hout
      simp only [List.cons.injEq, and_true] at this
      exact absurd this (test_pass_ne_timeout d _ e)
  · intro jsmn_parse pl action tms hi hdec
    have htms : tms = 0 := by
      unfold json_action_and_timeout at hdec
      simp only [] at hdec
      split at hdec
      · exact absurd hdec (by simp)
      · rw [hi] at hdec
        split at hdec
        · exact absurd hdec (by simp)
        · simp only [Option.some.injEq, Prod.mk.injEq] at hdec
          exact hdec.2.symm
    refine ⟨htms, fun ha => ?_⟩
    subst htms
    rw [msg_arrived_cb_some cfg w jsmn_parse pl fuel s action 0 hdec, ha,
      if_neg (by decide), if_neg (by decide), if_pos rfl]

/-- Witness of C10: with the default 300 ms and nothing new on the bus, the
calls with the arguments 0 and -5 are the call with 300 and time out after
300 ms, and the call with 100 times out after 100 ms. -/
theorem handle_test_effective_timeout_witness :
    handle_test cfgS worldB 0 7 sys0 = some ⟨300, 7, 6, [test_timeout_json 300]⟩ ∧
    handle_test cfgS worldB (-5) 7 sys0 = some ⟨300, 7, 6, [test_timeout_json 300]⟩ ∧
    handle_test cfgS worldB 100 7 sys0 = some ⟨100, 3, 2, [test_timeout_json 100]⟩ ∧
    msg_arrived_cb cfgS worldB jsmn_table payloadZ 7 sys0 = handle_test cfgS worldB 0 7 sys0 := by
  have h0 := (handle_test_effective_timeout cfgS worldB 0 7 sys0).2.1 (by decide)
  have h5 := (handle_test_effective_timeout cfgS worldB (-5) 7 sys0).2.1 (by decide)
  have hz := ((handle_test_effective_timeout cfgS worldB 0 7 sys0).2.2.2 jsmn_table payloadZ
    "test".toList 0 (by decide) (by decide)).2 rfl
  have hd : handle_test cfgS worldB cfgS.test.default_timeout_ms 7 sys0
      = some ⟨300, 7, 6, [test_timeout_json 300]⟩ := by decide
  exact ⟨h0.trans hd, h5.trans hd, by decide, hz⟩

/-! ## Enumeration: what `list_w1_devices` returns -/

theorem is_excluded_iff (cfg : app_cfg_t) (name : CStr) :
    is_excluded cfg name = true ↔ name ∈ cfg.w1.exclude := by
  unfold is_excluded
  simp only [List.any_eq_true, decide_eq_true_eq]
  constructor
  · rintro ⟨e, he, rfl⟩
    exact he
  · intro h
    exact ⟨name, h, rfl⟩

theorem family_allowed_iff (cfg : app_cfg_t) (name : CStr) :
    family_allowed cfg name = true ↔
      (cfg.w1.family_filter = [] ∨
        (2 ≤ name.length ∧ name.take 2 ∈ cfg.w1.family_filter)) := by
  unfold family_allowed
  by_cases h0 : cfg.w1.family_filter.length = 0
  · rw [if_pos h0]
    simp only [true_iff]
    exact Or.inl (List.length_eq_zero.mp h0)
  · rw [if_neg h0]
    have hne : cfg.w1.family_filter ≠ [] := fun e => h0 (by rw [e]; rfl)
    by_cases h2 : name.length < 2
    · rw [if_pos h2]
      constructor
      · intro h
        exact absurd h (by simp)
      · rintro (h | ⟨h, _⟩)
        · exact absurd h hne
        · omega
    · rw [if_neg h2]
      simp only [List.any_eq_true, decide_eq_true_eq]
      constructor
      · rintro ⟨f, hf, e⟩
        exact Or.inr ⟨by omega, e ▸ hf⟩
      · rintro (h | ⟨_, h⟩)
        · exact absurd h hne
        · exact ⟨_, h, rfl⟩

theorem list_w1_scan_eq (cfg : app_cfg_t) (max : Int) (names out : List CStr) :
    list_w1_scan cfg max names out =
      out ++ (((names.filter (passes_filters cfg)).map (snprintf MAX_ID_LEN)).take
        (max.toNat - out.length)) := by
  induction names generalizing out with
  | nil => simp [list_w1_scan]
  | cons x rest ih =>
    rw [list_w1_scan]
    by_cases h1 : x.head? = some '.'
    · rw [if_pos h1, ih, List.filter_cons_of_neg (by simp [passes_filters, h1])]
    · rw [if_neg h1]
      by_cases h2 : is_excluded cfg x = true
      · rw [if_pos h2, ih, List.filter_cons_of_neg (by simp [passes_filters, h2])]
      · rw [if_neg h2]
        by_cases h3 : family_allowed cfg x = true
        · have hp : passes_filters cfg x = true := by simp [passes_filters, h1, h2, h3]
          rw [if_neg (by simp [h3]), List.filter_cons_of_pos hp, List.map_cons]
          by_cases h4 : (out.length : Int) < max
          · rw [if_pos h4, ih, List.length_append, List.length_singleton, List.append_assoc]
            have hk : max.toNat - out.length = (max.toNat - (out.length + 1)) + 1 := by omega
            rw [hk, List.take_succ_cons]
            rfl
          · rw [if_neg h4, ih]
            have hk : max.toNat - out.length = 0 := by omega
            rw [hk, List.take_zero, List.take_zero]
        · rw [if_pos (by simp [h3]), ih, List.filter_cons_of_neg (by simp [passes_filters, h3])]

theorem list_w1_result_some (cfg : app_cfg_t) (max : Int) (names : List CStr) :
    list_w1_result cfg max (some names) =
      (((((names.filter (passes_filters cfg)).map (snprintf MAX_ID_LEN)).take
          max.toNat).length : Int),
        ((names.filter (passes_filters cfg)).map (snprintf MAX_ID_LEN)).take max.toNat) := by
  unfold list_w1_result
  simp only [list_w1_scan_eq, List.nil_append, List.length_nil, Nat.sub_zero]

theorem passes_filters_iff (cfg : app_cfg_t) (name : CStr) :
    passes_filters cfg name = true ↔
      (name.head? ≠ some '.' ∧ name ∉ cfg.w1.exclude ∧ family_allowed cfg name = true) := by
  unfold passes_filters
  simp only [Bool.and_eq_true, Bool.not_eq_true', decide_eq_false_iff_not]
  rw [← Bool.not_eq_true, is_excluded_iff]
  exact and_assoc

theorem snprintf_id_short (name : CStr) (h : name.length ≤ 63) :
    snprintf MAX_ID_LEN name = name := by
  unfold snprintf MAX_ID_LEN
  exact List.take_of_length_le h

theorem snprintf_id_length (name : CStr) : (snprintf MAX_ID_LEN name).length ≤ 63 := by
  unfold snprintf MAX_ID_LEN
  rw [List.length_take]
  omega

theorem list_w1_result_mem (cfg : app_cfg_t) (max : Int) (names : List CStr) (id : CStr)
    (h : id ∈ (list_w1_result cfg max (some names)).2) :
    ∃ name, name ∈ names ∧ passes_filters cfg name = true ∧ id = name.take 63 := by
  rw [list_w1_result_some] at h
  have h2 := List.mem_of_mem_take h
  rw [List.mem_map] at h2
  obtain ⟨name, hn, rfl⟩ := h2
  rw [List.mem_filter] at hn
  exact ⟨name, hn.1, hn.2, rfl⟩

/-! ## C11: the filters are sound up to the 63-character cut -/

/-- C11, amended: every identifier `list_w1_devices` returns is the first 63
characters of a source name that does not begin with `.`, is not in the
exclude-list and passes the family filter. So, for every filter
configuration and every `max`: when the source names have at most 63
characters, no returned identifier is an entry of the exclude-list; and, for
names of any length, when the family allow-list is non-empty every returned
identifier has two characters or more and its first two characters are an
entry of the allow-list. -/
theorem list_w1_devices_filter_sound (cfg : app_cfg_t) (w : World) (max : Int) (s : Sys)
    (names : List CStr) (id : CStr) (hdir : w.readdir s.nscan = some names)
    (hid : id ∈ (list_w1_devices cfg w max s).1.2) :
    (∃ name, name ∈ names ∧ id = name.take 63 ∧ name.head? ≠ some '.' ∧
      name ∉ cfg.w1.exclude ∧ family_allowed cfg name = true) ∧
    ((∀ name ∈ names, name.length ≤ 63) → id ∉ cfg.w1.exclude) ∧
    (cfg.w1.family_filter ≠ [] → 2 ≤ id.length ∧ id.take 2 ∈ cfg.w1.family_filter) := by
  have hid2 : id ∈ (list_w1_result cfg max (some names)).2 := by
    unfold list_w1_devices at hid
    rw [hdir] at hid
    exact hid
  obtain ⟨name, hn, hp, rfl⟩ := list_w1_result_mem cfg max names id hid2
  obtain ⟨h1, h2, h3⟩ := (passes_filters_iff cfg name).mp hp
  refine ⟨⟨name, hn, rfl, h1, h2, h3⟩, fun hshort => ?_, fun hfam => ?_⟩
  · rw [List.take_of_length_le (hshort name hn)]
    exact h2
  · rcases (family_allowed_iff cfg name).mp h3 with h | ⟨hlen, hmem⟩
    · exact absurd h hfam
    · refine ⟨?_, ?_⟩
      · rw [List.length_take]
        omega
      · rw [List.take_take]
        exact hmem

/-- Witness of C11: with the families `01` and `10` allowed and `01-bad`
excluded, the listing `namesF` gives `01-a` and `10-b`. -/
theorem list_w1_devices_filter_sound_witness :
    (list_w1_devices cfgF ⟨fun _ => some namesF, fun _ => 0⟩ MAX_DEVICES sys0).1
      = (2, ["01-a".toList, "10-b".toList]) ∧
    "01-a".toList ∉ cfgF.w1.exclude ∧
    (2 ≤ "01-a".toList.length ∧ "01-a".toList.take 2 ∈ cfgF.w1.family_filter) := by
  have h := list_w1_devices_filter_sound cfgF ⟨fun _ => some namesF, fun _ => 0⟩ MAX_DEVICES
    sys0 namesF "01-a".toList rfl (by decide)
  exact ⟨by decide, h.2.1 (by decide), h.2.2 (by decide)⟩

/-- C11 as stated fails for a source name of 64 characters: with the
63-character name `aa...a` on the exclude-list, the source name of 64 `a`s is
not excluded (the comparison is on the full name), and the identifier
returned for it, cut to 63 characters, is the entry of the exclude-list. -/
theorem list_w1_devices_returns_excluded :
    (list_w1_devices cfgX ⟨fun _ => some [List.replicate 64 'a'], fun _ => 0⟩
      MAX_DEVICES sys0).1 = (1, [List.replicate 63 'a']) ∧
    List.replicate 63 'a' ∈ cfgX.w1.exclude ∧
    is_excluded cfgX (List.replicate 64 'a') = false := by
  decide

/-! ## C12: enumeration is complete up to `max` names and 63 characters -/

/-- C12, amended: for every filter configuration and every source listing in
which at most `max` names pass the three rules (not beginning with `.`, not
in the exclude-list, passing the family filter) and no name has more than 63
characters, `list_w1_devices` returns exactly the passing names, in source
order: an identifier is returned if and only if it is a source name that
passes, and nothing that passes is left out. -/
theorem list_w1_devices_complete (cfg : app_cfg_t) (w : World) (max : Int) (s : Sys)
    (names : List CStr) (hdir : w.readdir s.nscan = some names)
    (hfit : ((names.filter (passes_filters cfg)).length : Int) ≤ max)
    (hshort : ∀ name ∈ names, name.length ≤ 63) :
    (list_w1_devices cfg w max s).1 =
      (((names.filter (passes_filters cfg)).length : Int),
        names.filter (passes_filters cfg)) ∧
    (∀ x, x ∈ (list_w1_devices cfg w max s).1.2 ↔
      (x ∈ names ∧ x.head? ≠ some '.' ∧ x ∉ cfg.w1.exclude ∧
        family_allowed cfg x = true)) := by
  have hmap : (names.filter (passes_filters cfg)).map (snprintf MAX_ID_LEN)
      = names.filter (passes_filters cfg) := by
    conv_rhs => rw [← List.map_id (names.filter (passes_filters cfg))]
    apply List.map_congr_left
    intro x hx
    exact snprintf_id_short x (hshort x (List.mem_of_mem_filter hx))
  have heq : (list_w1_devices cfg w max s).1 =
      (((names.filter (passes_filters cfg)).length : Int),
        names.filter (passes_filters cfg)) := by
    unfold list_w1_devices
    rw [hdir]
    show list_w1_result cfg max (some names) = _
    rw [list_w1_result_some, hmap, List.take_of_length_le (by omega)]
  refine ⟨heq, fun x => ?_⟩
  rw [heq]
  show x ∈ names.filter (passes_filters cfg) ↔ _
  rw [List.mem_filter, passes_filters_iff]

/-- Witness of C12: the listing `namesF` under `cfgF`. -/
theorem list_w1_devices_complete_witness :
    (list_w1_devices cfgF ⟨fun _ => some namesF, fun _ => 0⟩ MAX_DEVICES sys0).1 =
      (((namesF.filter (passes_filters cfgF)).length : Int),
        namesF.filter (passes_filters cfgF)) ∧
    namesF.filter (passes_filters cfgF) = ["01-a".toList, "10-b".toList] :=
  ⟨(list_w1_devices_complete cfgF ⟨fun _ => some namesF, fun _ => 0⟩ MAX_DEVICES sys0 namesF
      rfl (by decide) (by decide)).1, by decide⟩

/-- C12 as stated fails. Of thirty-three passing names `list_w1_devices`
returns the first thirty-two: `01-32` passes the three rules and is left out.
And of a passing name of 64 characters it returns the first 63, so the name
itself is not among the returned identifiers. -/
theorem list_w1_devices_leaves_out :
    "01-32".toList ∈ names33 ∧ passes_filters cfgA "01-32".toList = true ∧
    (list_w1_devices cfgA ⟨fun _ => some names33, fun _ => 0⟩ MAX_DEVICES sys0).1.1 = 32 ∧
    "01-32".toList ∉
      (list_w1_devices cfgA ⟨fun _ => some names33, fun _ => 0⟩ MAX_DEVICES sys0).1.2 ∧
    passes_filters cfgA (List.replicate 64 'b') = true ∧
    (list_w1_devices cfgA ⟨fun _ => some [List.replicate 64 'b'], fun _ => 0⟩
      MAX_DEVICES sys0).1 = (1, [List.replicate 63 'b']) := by
  decide

/-! ## C13: the family rule -/

/-- C13: `family_allowed(name)` is true if and only if the family allow-list
is empty, or the name has at least two characters and its first two
characters are an entry of the allow-list. With an empty allow-list every
name passes, also one of fewer than two characters; with a non-empty
allow-list every name of fewer than two characters is dropped. -/
theorem family_allowed_decides (cfg : app_cfg_t) (name : CStr) :
    (family_allowed cfg name = true ↔
      (cfg.w1.family_filter = [] ∨
        (2 ≤ name.length ∧ name.take 2 ∈ cfg.w1.family_filter))) ∧
    (cfg.w1.family_filter = [] → family_allowed cfg name = true) ∧
    (cfg.w1.family_filter ≠ [] → name.length < 2 → family_allowed cfg name = false) := by
  refine ⟨family_allowed_iff cfg name, fun h => ?_, fun hne hlt => ?_⟩
  · exact (family_allowed_iff cfg name).mpr (Or.inl h)
  · rw [← Bool.not_eq_true, family_allowed_iff]
    rintro (h | ⟨h, _⟩)
    · exact hne h
    · omega

/-- Witness of C13: with the allow-list `01`, `10` the names `01-a` and `10`
pass and `1`, `28-c` and the empty name do not; with no allow-list `1` and the
empty name pass. -/
theorem family_allowed_decides_witness :
    family_allowed cfgF "01-a".toList = true ∧ family_allowed cfgF "10".toList = true ∧
    family_allowed cfgF "1".toList = false ∧ family_allowed cfgF "28-c".toList = false ∧
    family_allowed cfgF [] = false ∧
    family_allowed cfgA "1".toList = true ∧ family_allowed cfgA [] = true := by
  have h1 := (family_allowed_decides cfgF "1".toList).2.2 (by decide) (by decide)
  have h0 := (family_allowed_decides cfgF []).2.2 (by decide) (by decide)
  have ha := (family_allowed_decides cfgA "1".toList).2.1 rfl
  have hb := (family_allowed_decides cfgA []).2.1 rfl
  exact ⟨by decide, by decide, h1, by decide, h0, ha, hb⟩

/-! ## C19: enumeration is bounded and keeps the source order -/

/-- C19: for every source listing and every `max >= 0`, a successful
`list_w1_devices` returns a count with `0 <= count <= max` that is the number
of identifiers written to `out` (so every index below the count is in range),
and the identifiers are, in source order, the first `count` source names
that pass the three rules, each cut to its first 63 characters. -/
theorem list_w1_devices_bounded (cfg : app_cfg_t) (w : World) (max : Int) (s : Sys)
    (names : List CStr) (hmax : 0 ≤ max) (hdir : w.readdir s.nscan = some names) :
    0 ≤ (list_w1_devices cfg w max s).1.1 ∧
    (list_w1_devices cfg w max s).1.1 ≤ max ∧
    (list_w1_devices cfg w max s).1.1 = ((list_w1_devices cfg w max s).1.2.length : Int) ∧
    (list_w1_devices cfg w max s).1.2 =
      ((names.filter (passes_filters cfg)).take (list_w1_devices cfg w max s).1.1.toNat).map
        (fun name => name.take 63) ∧
    (∀ id ∈ (list_w1_devices cfg w max s).1.2, id.length ≤ 63) ∧
    (∀ i : Nat, (i : Int) < (list_w1_devices cfg w max s).1.1 →
      ∃ id, (list_w1_devices cfg w max s).1.2[i]? = some id) := by
  have heq : (list_w1_devices cfg w max s).1 = list_w1_result cfg max (some names) := by
    unfold list_w1_devices
    rw [hdir]
  rw [heq, list_w1_result_some]
  simp only []
  have hlen : (((names.filter (passes_filters cfg)).map (snprintf MAX_ID_LEN)).take
      max.toNat).length = min max.toNat (names.filter (passes_filters cfg)).length := by
    rw [List.length_take, List.length_map]
  have hf : snprintf MAX_ID_LEN = fun name : CStr => name.take 63 := rfl
  refine ⟨by omega, by omega, trivial, ?_, ?_, ?_⟩
  · rw [Int.toNat_ofNat, hlen, ← List.map_take, hf]
    congr 1
    by_cases hle : max.toNat ≤ (names.filter (passes_filters cfg)).length
    · rw [Nat.min_eq_left hle]
    · rw [Nat.min_eq_right (by omega), List.take_of_length_le (by omega),
        List.take_of_length_le (Nat.le_refl _)]
  · intro id hid
    have h2 := List.mem_of_mem_take hid
    rw [List.mem_map] at h2
    obtain ⟨name, _, rfl⟩ := h2
    exact snprintf_id_length name
  · intro i hi
    have hi2 : i < (((names.filter (passes_filters cfg)).map (snprintf MAX_ID_LEN)).take
        max.toNat).length := by omega
    exact ⟨_, List.getElem?_eq_getElem hi2⟩

/-- Witness of C19: thirty-three passing names and `max = 32`. -/
theorem list_w1_devices_bounded_witness :
    (list_w1_devices cfgA ⟨fun _ => some names33, fun _ => 0⟩ MAX_DEVICES sys0).1.1 = 32 ∧
    (list_w1_devices cfgA ⟨fun _ => some names33, fun _ => 0⟩ MAX_DEVICES sys0).1.2 =
      ((names33.filter (passes_filters cfgA)).take 32).map (fun name => name.take 63) := by
  have h := list_w1_devices_bounded cfgA ⟨fun _ => some names33, fun _ => 0⟩ MAX_DEVICES sys0
    names33 (by decide) rfl
  have h32 : (list_w1_devices cfgA ⟨fun _ => some names33, fun _ => 0⟩ MAX_DEVICES sys0).1.1
      = 32 := by decide
  refine ⟨h32, ?_⟩
  have h4 := h.2.2.2.1
  rw [h32] at h4
  exact h4

/-! ## C14: the status event -/

theorem snprintf_at_fits (buf text : CStr) (rem : Int) (h : (text.length : Int) < rem) :
    snprintf_at (buf, rem) text = (buf ++ text, rem - (text.length : Int)) := by
  unfold snprintf_at
  simp only []
  rw [if_pos (by omega), List.take_of_length_le (by omega)]

theorem status_ids_loop_fits (ids : List CStr) (i : Nat) (buf : CStr) (rem : Int)
    (h : ((status_ids_text ids i).length : Int) < rem) :
    status_ids_loop ids i (buf, rem) =
      (buf ++ status_ids_text ids i, rem - ((status_ids_text ids i).length : Int)) := by
  induction ids generalizing i buf rem with
  | nil => simp [status_ids_loop, status_ids_text]
  | cons id rest ih =>
    have hlen : (status_ids_text (id :: rest) i).length =
        ((if i ≠ 0 then ",".toList else []) ++ "\"".toList ++ id ++ "\"".toList).length +
          (status_ids_text rest (i + 1)).length := by
      rw [status_ids_text, List.length_append]
    rw [hlen] at h
    push_cast at h
    rw [status_ids_loop, snprintf_at_fits _ _ _ (by omega), ih _ _ _ (by omega), hlen]
    rw [status_ids_text, List.append_assoc buf]
    congr 1
    push_cast
    omega

theorem status_ids_text_succ (ids : List CStr) (i : Nat) :
    status_ids_text ids (i + 1) =
      (ids.map (fun id => ",".toList ++ ("\"".toList ++ id ++ "\"".toList))).flatten := by
  induction ids generalizing i with
  | nil => rfl
  | cons id rest ih =>
    rw [status_ids_text, ih, if_pos (Nat.succ_ne_zero i)]
    simp [List.append_assoc]

theorem comma_separated_cons (x : CStr) (xs : List CStr) :
    comma_separated (x :: xs) = x ++ (xs.map (fun y => ",".toList ++ y)).flatten := by
  induction xs generalizing x with
  | nil => simp [comma_separated]
  | cons y rest ih =>
    rw [comma_separated, ih]
    simp [List.append_assoc]

theorem status_ids_text_zero (ids : List CStr) :
    status_ids_text ids 0 =
      comma_separated (ids.map (fun id => "\"".toList ++ id ++ "\"".toList)) := by
  cases ids with
  | nil => rfl
  | cons id rest =>
    rw [status_ids_text, status_ids_text_succ, List.map_cons, comma_separated_cons,
      if_neg (by simp), List.map_map]
    simp [List.append_assoc, Function.comp_def]

/-- C14: when the enumeration fails, `send_status_event` publishes exactly
`{"event":"status","result":"fail","error":"w1_read"}`; when it succeeds and
returns `id_1`, ..., `id_n` (`n >= 0`) and the text fits the 1024-byte buffer,
it publishes exactly
`{"event":"status","result":"pass","devices":["id_1",...,"id_n"]}`: the
identifiers in enumeration order, separated by commas, each once. In both
cases this is its only event, after one enumeration and no sleep. -/
theorem send_status_event_content (cfg : app_cfg_t) (w : World) (s : Sys) :
    (w.readdir s.nscan = none →
      send_status_event cfg w s =
        ⟨s.clock, s.nscan + 1, s.nsleep, s.out ++ [status_w1_read_json]⟩ ∧
      status_w1_read_json =
        "\x7b\"event\":\"status\",\"result\":\"fail\",\"error\":\"w1_read\"\x7d".toList) ∧
    (w.readdir s.nscan ≠ none →
      (status_pass_text (snapshot cfg w s.nscan).2).length < MAX_JSON →
      send_status_event cfg w s =
        ⟨s.clock, s.nscan + 1, s.nsleep,
          s.out ++ [status_pass_text (snapshot cfg w s.nscan).2]⟩) := by
  constructor
  · intro hnone
    refine ⟨?_, rfl⟩
    unfold send_status_event
    simp only [list_w1_devices_eq]
    rw [if_pos ((snapshot_neg_iff cfg w s.nscan).mpr hnone)]
    rfl
  · intro hsome hfit
    unfold send_status_event
    simp only [list_w1_devices_eq, snapshot_take]
    have hn : ¬ (snapshot cfg w s.nscan).1 < 0 := fun h =>
      hsome ((snapshot_neg_iff cfg w s.nscan).mp h)
    rw [if_neg hn, if_pos (by omega)]
    have h0 : snprintf_at ([], (MAX_JSON : Int))
        ("\x7b\"event\":\"status\",\"result\":\"".toList ++ "pass".toList ++
          "\",\"devices\":[".toList) =
        ("\x7b\"event\":\"status\",\"result\":\"pass\",\"devices\":[".toList, 979) := by
      decide
    have hl : (status_pass_text (snapshot cfg w s.nscan).2).length =
        45 + (status_ids_text (snapshot cfg w s.nscan).2 0).length + 2 := by
      unfold status_pass_text
      rw [← status_ids_text_zero, List.length_append, List.length_append]
      have ha : "\x7b\"event\":\"status\",\"result\":\"pass\",\"devices\":[".toList.length = 45 :=
        rfl
      have hb : "]\x7d".toList.length = 2 := rfl
      rw [ha, hb]
    rw [hl] at hfit
    have hfit2 : (status_ids_text (snapshot cfg w s.nscan).2 0).length < 977 := by
      unfold MAX_JSON at hfit
      omega
    rw [h0, status_ids_loop_fits _ _ _ _ (by omega)]
    have h2 : (("]\x7d".toList.length : Nat) : Int) <
        979 - ((status_ids_text (snapshot cfg w s.nscan).2 0).length : Int) := by
      have : "]\x7d".toList.length = 2 := rfl
      rw [this]
      push_cast
      omega
    rw [snprintf_at_fits _ _ _ h2]
    unfold status_pass_text
    rw [← status_ids_text_zero]
    rfl

/-- Witness of C14, scenario D: with `01-a` and `10-b` present and no filters
the event lists both; with an unreadable directory it is the `w1_read`
failure. -/
theorem send_status_event_content_witness :
    send_status_event cfgA worldD sys0 =
      ⟨0, 1, 0, ["\x7b\"event\":\"status\",\"result\":\"pass\",\"devices\":[\"01-a\",\"10-b\"]\x7d".toList]⟩ ∧
    send_status_event cfgA worldC sys0 = ⟨0, 1, 0, [status_w1_read_json]⟩ := by
  have h := send_status_event_content cfgA worldD sys0
  have hc := send_status_event_content cfgA worldC sys0
  refine ⟨?_, (hc.1 rfl).1⟩
  rw [h.2 (by decide) (by decide)]
  decide

/-! ## C17: scan is status -/

/-- C17: for every environment, the dispatcher treats a command that decodes
to the action `scan` exactly as one that decodes to `status`: both return,
with any fuel, the state `send_status_event` leaves, that is the same single
event (the status event, or the `w1_read` failure) after the same single
enumeration and no sleep; `handle_scan` is `send_status_event`. -/
theorem scan_is_status (cfg : app_cfg_t) (w : World) (jsmn_parse : jsmn_tokenizer)
    (pl_status pl_scan : List Char) (fuel fuel' : Nat) (s : Sys) (tms tms' : Int)
    (hstatus : json_action_and_timeout jsmn_parse (payload_copy pl_status) 0
      = some ("status".toList, tms))
    (hscan : json_action_and_timeout jsmn_parse (payload_copy pl_scan) 0
      = some ("scan".toList, tms')) :
    msg_arrived_cb cfg w jsmn_parse pl_scan fuel' s
      = msg_arrived_cb cfg w jsmn_parse pl_status fuel s ∧
    msg_arrived_cb cfg w jsmn_parse pl_scan fuel' s = some (send_status_event cfg w s) ∧
    handle_scan cfg w s = send_status_event cfg w s ∧
    (∃ ev, send_status_event cfg w s = ⟨s.clock, s.nscan + 1, s.nsleep, s.out ++ [ev]⟩) := by
  have h1 : msg_arrived_cb cfg w jsmn_parse pl_status fuel s
      = some (send_status_event cfg w s) := by
    rw [msg_arrived_cb_some cfg w jsmn_parse pl_status fuel s _ tms hstatus, if_pos rfl]
  have h2 : msg_arrived_cb cfg w jsmn_parse pl_scan fuel' s
      = some (send_status_event cfg w s) := by
    rw [msg_arrived_cb_some cfg w jsmn_parse pl_scan fuel' s _ tms' hscan,
      if_neg (by decide), if_pos rfl]
    rfl
  exact ⟨h2.trans h1.symm, h2, rfl, send_status_event_out cfg w s⟩

/-- Witness of C17: the commands `{"action":"scan"}` and `{"action":"status"}`
with `01-a` and `10-b` present, and with an unreadable directory. -/
theorem scan_is_status_witness :
    msg_arrived_cb cfgA worldD jsmn_table2 payloadScan 0 sys0
      = msg_arrived_cb cfgA worldD jsmn_table2 payloadStatus 0 sys0 ∧
    msg_arrived_cb cfgA worldD jsmn_table2 payloadScan 0 sys0 =
      some ⟨0, 1, 0, [status_pass_text ["01-a".toList, "10-b".toList]]⟩ ∧
    msg_arrived_cb cfgA worldC jsmn_table2 payloadScan 0 sys0
      = msg_arrived_cb cfgA worldC jsmn_table2 payloadStatus 0 sys0 := by
  have hD := scan_is_status cfgA worldD jsmn_table2 payloadStatus payloadScan 0 0 sys0 0 0
    (by decide) (by decide)
  have hC := scan_is_status cfgA worldC jsmn_table2 payloadStatus payloadScan 0 0 sys0 0 0
    (by decide) (by decide)
  refine ⟨hD.1, ?_, hC.1⟩
  rw [hD.2.1]
  decide

/-! ## C15: the shapes of the test events -/

theorem fmt_u_length (n : Nat) (h : n < 2 ^ 32) : (fmt_u n).length ≤ 10 := by
  unfold fmt_u Nat.toDigits
  exact Nat.toDigitsCore_length 10 (by decide) (n + 1) n 10 (by omega) (by decide)

theorem unsigned_cast_lt (x : Nat) : unsigned_cast x < 2 ^ 32 := by
  unfold unsigned_cast
  exact Nat.mod_lt _ (by decide)

theorem test_pass_json_text (d : CStr) (n : Nat) (hd : d.length ≤ 63) (hn : n < 2 ^ 32) :
    test_pass_json d n =
      "\x7b\"event\":\"test\",\"result\":\"pass\",\"device\":\"".toList ++ d ++
        "\",\"elapsed_ms\":".toList ++ fmt_u n ++ "\x7d".toList := by
  unfold test_pass_json snprintf
  apply List.take_of_length_le
  have h1 : "\x7b\"event\":\"test\",\"result\":\"pass\",\"device\":\"".toList.length = 42 := rfl
  have h2 : "\",\"elapsed_ms\":".toList.length = 15 := rfl
  have h3 : "\x7d".toList.length = 1 := rfl
  have h4 := fmt_u_length n hn
  simp only [List.length_append, h1, h2, h3]
  omega

theorem test_timeout_json_text (n : Nat) (hn : n < 2 ^ 32) :
    test_timeout_json n =
      "\x7b\"event\":\"test\",\"result\":\"fail\",\"error\":\"timeout\",\"elapsed_ms\":".toList ++
        fmt_u n ++ "\x7d".toList := by
  unfold test_timeout_json snprintf
  apply List.take_of_length_le
  have h1 : "\x7b\"event\":\"test\",\"result\":\"fail\",\"error\":\"timeout\",\"elapsed_ms\":".toList.length
      = 63 := rfl
  have h3 : "\x7d".toList.length = 1 := rfl
  have h4 := fmt_u_length n hn
  simp only [List.length_append, h1, h3]
  omega

theorem snapshot_mem_length (cfg : app_cfg_t) (w : World) (k : Nat) (id : CStr)
    (h : id ∈ (snapshot cfg w k).2) : id.length ≤ 63 := by
  unfold snapshot at h
  cases hr : w.readdir k with
  | none =>
    rw [hr] at h
    exact absurd h (List.not_mem_nil id)
  | some names =>
    rw [hr] at h
    obtain ⟨name, _, _, rfl⟩ := list_w1_result_mem cfg MAX_DEVICES names id h
    rw [List.length_take]
    omega

/-- C15, amended: every event `handle_test` publishes, in every run, has one
of three shapes: `{"event":"test","result":"pass","device":"<id>","elapsed_ms":<n>}`,
`{"event":"test","result":"fail","error":"timeout","elapsed_ms":<n>}`, or
`{"event":"test","result":"fail","error":"w1_read"}`. The pass event and the
timeout event carry an `elapsed_ms` field; the `w1_read` event, published
when the baseline enumeration fails, carries none. -/
theorem handle_test_event_shapes (cfg : app_cfg_t) (w : World) (timeout_ms : Int)
    (fuel : Nat) (s s' : Sys) (h : handle_test cfg w timeout_ms fuel s = some s') :
    ∃ ev, s'.out = s.out ++ [ev] ∧
      ((∃ (d : CStr) (n : Nat), ev =
          "\x7b\"event\":\"test\",\"result\":\"pass\",\"device\":\"".toList ++ d ++
            "\",\"elapsed_ms\":".toList ++ fmt_u n ++ "\x7d".toList) ∨
       (∃ n : Nat, ev =
          "\x7b\"event\":\"test\",\"result\":\"fail\",\"error\":\"timeout\",\"elapsed_ms\":".toList
            ++ fmt_u n ++ "\x7d".toList) ∨
       (w.readdir s.nscan = none ∧ ev =
          "\x7b\"event\":\"test\",\"result\":\"fail\",\"error\":\"w1_read\"\x7d".toList)) := by
  rcases handle_test_result cfg w timeout_ms fuel s s' h with
    ⟨hr, ho⟩ | ⟨ho, _⟩ | ⟨d, _, _, _, hmem, ho⟩
  · exact ⟨_, ho, Or.inr (Or.inr ⟨hr, rfl⟩)⟩
  · exact ⟨_, ho, Or.inr (Or.inl ⟨_, test_timeout_json_text _ (unsigned_cast_lt _)⟩)⟩
  · exact ⟨_, ho, Or.inl ⟨d, _, test_pass_json_text d _
      (snapshot_mem_length cfg w _ d hmem) (unsigned_cast_lt _)⟩⟩

/-- Witness of C15: the three shapes, in the runs of scenario A, scenario B
and scenario C. -/
theorem handle_test_event_shapes_witness :
    handle_test cfgA worldA 10000 3 sys0 =
      some ⟨200, 5, 3, ["\x7b\"event\":\"test\",\"result\":\"pass\",\"device\":\"01-aabbccddeeff\",\"elapsed_ms\":200\x7d".toList]⟩ ∧
    handle_test cfgA worldB 200 5 sys0 =
      some ⟨200, 5, 4, ["\x7b\"event\":\"test\",\"result\":\"fail\",\"error\":\"timeout\",\"elapsed_ms\":200\x7d".toList]⟩ ∧
    handle_test cfgA worldC 200 5 sys0 =
      some ⟨0, 1, 0, ["\x7b\"event\":\"test\",\"result\":\"fail\",\"error\":\"w1_read\"\x7d".toList]⟩ ∧
    (∃ ev, (⟨200, 5, 4, [test_timeout_json 200]⟩ : Sys).out = sys0.out ++ [ev] ∧
      ((∃ (d : CStr) (n : Nat), ev =
          "\x7b\"event\":\"test\",\"result\":\"pass\",\"device\":\"".toList ++ d ++
            "\",\"elapsed_ms\":".toList ++ fmt_u n ++ "\x7d".toList) ∨
       (∃ n : Nat, ev =
          "\x7b\"event\":\"test\",\"result\":\"fail\",\"error\":\"timeout\",\"elapsed_ms\":".toList
            ++ fmt_u n ++ "\x7d".toList) ∨
       (worldB.readdir sys0.nscan = none ∧ ev =
          "\x7b\"event\":\"test\",\"result\":\"fail\",\"error\":\"w1_read\"\x7d".toList))) :=
  ⟨by decide, by decide, by decide,
   handle_test_event_shapes cfgA worldB 200 5 sys0 ⟨200, 5, 4, [test_timeout_json 200]⟩
     (by decide)⟩

/-- C15 as stated fails for the `w1_read` event: when the baseline enumeration
fails, the one event `handle_test` publishes is
`{"event":"test","result":"fail","error":"w1_read"}`, in which no `elapsed_ms`
field occurs. -/
theorem handle_test_w1_read_without_elapsed :
    handle_test cfgA worldC 10000 1 sys0 =
      some ⟨0, 1, 0, ["\x7b\"event\":\"test\",\"result\":\"fail\",\"error\":\"w1_read\"\x7d".toList]⟩ ∧
    ¬ ("elapsed_ms".toList <:+:
        "\x7b\"event\":\"test\",\"result\":\"fail\",\"error\":\"w1_read\"\x7d".toList) := by
  decide

/-! ## C16: the confirmed device is the first surviving new identifier -/

theorem new_entries_cons_known (B : List CStr) (x : CStr) (l : List CStr) (h : x ∈ B) :
    new_entries B (x :: l) = new_entries B l := by
  unfold new_entries
  rw [List.filter_cons_of_neg (by simp [h])]

theorem new_entries_cons_new (B : List CStr) (x : CStr) (l : List CStr) (h : x ∉ B) :
    new_entries B (x :: l) = x :: new_entries B l := by
  unfold new_entries
  rw [List.filter_cons_of_pos (by simp [h])]

theorem debounce_loop_first (cfg : app_cfg_t) (w : World) (B : List CStr) (t0 : Nat)
    (L : List CStr) (s : Sys)
    (hb : (debounce_loop cfg w B (B.length : Int) t0 L s).2 = true) :
    ∃ pre d rest, L = pre ++ d :: rest ∧ d ∉ B ∧
      d ∈ (snapshot cfg w (s.nscan + (new_entries B pre).length)).2 ∧
      (debounce_loop cfg w B (B.length : Int) t0 L s).1.nscan
        = s.nscan + (new_entries B pre).length + 1 ∧
      (∀ q x, pre[q]? = some x →
        x ∈ B ∨ x ∉ (snapshot cfg w (s.nscan + (new_entries B (pre.take q)).length)).2) ∧
      (debounce_loop cfg w B (B.length : Int) t0 L s).1.out = s.out ++
        [test_pass_json d (unsigned_cast
          ((debounce_loop cfg w B (B.length : Int) t0 L s).1.clock - t0))] := by
  induction L generalizing s with
  | nil => simp [debounce_loop] at hb
  | cons x tl ih =>
    rw [debounce_loop_cons] at hb ⊢
    by_cases hx : x ∈ B
    · rw [if_pos hx] at hb ⊢
      obtain ⟨pre, d, rest, hL, hd, hmem, hn, hpre, hout⟩ := ih s hb
      refine ⟨x :: pre, d, rest, by rw [hL]; rfl, hd, ?_, ?_, ?_, hout⟩
      · rw [new_entries_cons_known B x pre hx]
        exact hmem
      · rw [new_entries_cons_known B x pre hx]
        exact hn
      · intro q y hy
        cases q with
        | zero =>
          simp only [List.getElem?_cons_zero, Option.some.injEq] at hy
          exact Or.inl (hy ▸ hx)
        | succ q =>
          rw [List.getElem?_cons_succ] at hy
          rw [List.take_succ_cons, new_entries_cons_known B x _ hx]
          exact hpre q y hy
    · rw [if_neg hx] at hb ⊢
      by_cases hc : x ∈ (snapshot cfg w s.nscan).2
      · rw [if_pos hc]
        refine ⟨[], x, tl, rfl, hx, ?_, ?_, ?_, rfl⟩
        · exact hc
        · rfl
        · intro q y hy
          simp at hy
      · rw [if_neg hc] at hb ⊢
        obtain ⟨pre, d, rest, hL, hd, hmem, hn, hpre, hout⟩ := ih (rechecked cfg w s) hb
        rw [rechecked_nscan] at hmem hn
        refine ⟨x :: pre, d, rest, by rw [hL]; rfl, hd, ?_, ?_, ?_, ?_⟩
        · rw [new_entries_cons_new B x pre hx, List.length_cons]
          have : s.nscan + ((new_entries B pre).length + 1)
              = s.nscan + 1 + (new_entries B pre).length := by omega
          rw [this]
          exact hmem
        · rw [new_entries_cons_new B x pre hx, List.length_cons, hn]
          omega
        · intro q y hy
          cases q with
          | zero =>
            simp only [List.getElem?_cons_zero, Option.some.injEq] at hy
            right
            rw [← hy]
            simpa [new_entries] using hc
          | succ q =>
            rw [List.getElem?_cons_succ] at hy
            rw [List.take_succ_cons, new_entries_cons_new B x _ hx, List.length_cons]
            have := hpre q y hy
            rw [rechecked_nscan] at this
            have he : s.nscan + ((new_entries B (List.take q pre)).length + 1)
                = s.nscan + 1 + (new_entries B (List.take q pre)).length := by omega
            rw [he]
            exact this
        · rw [hout]
          rfl

theorem poll_loop_first (cfg : app_cfg_t) (w : World) (B : List CStr) (t0 : Nat) (T : Int)
    (fuel : Nat) (s s' : Sys)
    (h : poll_loop cfg w B (B.length : Int) t0 T fuel s = some s') :
    (s'.out = s.out ++ [test_timeout_json (unsigned_cast (s'.clock - t0))]) ∨
    (∃ p pre d rest, s.nscan ≤ p ∧ (snapshot cfg w p).2 = pre ++ d :: rest ∧ d ∉ B ∧
      d ∈ (snapshot cfg w (p + 1 + (new_entries B pre).length)).2 ∧
      s'.nscan = p + 1 + (new_entries B pre).length + 1 ∧
      (∀ q x, pre[q]? = some x →
        x ∈ B ∨ x ∉ (snapshot cfg w (p + 1 + (new_entries B (pre.take q)).length)).2) ∧
      s'.out = s.out ++ [test_pass_json d (unsigned_cast (s'.clock - t0))]) := by
  induction fuel generalizing s with
  | zero => simp [poll_loop] at h
  | succ fuel ih =>
    rw [poll_loop_succ] at h
    by_cases hT : int_cast (s.clock - t0) < T
    · rw [if_pos hT] at h
      by_cases hb :
          (debounce_loop cfg w B (B.length : Int) t0 (snapshot cfg w s.nscan).2 (scanned s)).2
            = true
      · rw [if_pos hb] at h
        have he := Option.some.inj h
        obtain ⟨pre, d, rest, hL, hd, hmem, hn, hpre, hout⟩ :=
          debounce_loop_first cfg w B t0 _ (scanned s) hb
        rw [he] at hn hout
        right
        exact ⟨s.nscan, pre, d, rest, Nat.le_refl _, hL, hd, hmem, hn, hpre, hout⟩
      · rw [if_neg hb] at h
        have hb2 := Bool.eq_false_iff.mpr hb
        obtain ⟨h1, _, _, h4, _⟩ :=
          debounce_loop_spec cfg w B t0 (snapshot cfg w s.nscan).2 (scanned s)
        have hsc : (scanned s).nscan = s.nscan + 1 := rfl
        rw [hsc] at h1
        have hout0 : (usleep w (50 * 1000) (debounce_loop cfg w B (B.length : Int) t0
            (snapshot cfg w s.nscan).2 (scanned s)).1).out = s.out := by
          show (debounce_loop cfg w B (B.length : Int) t0 (snapshot cfg w s.nscan).2
            (scanned s)).1.out = s.out
          rw [h4 hb2]
          rfl
        have hns : (usleep w (50 * 1000) (debounce_loop cfg w B (B.length : Int) t0
            (snapshot cfg w s.nscan).2 (scanned s)).1).nscan
            = (debounce_loop cfg w B (B.length : Int) t0
            (snapshot cfg w s.nscan).2 (scanned s)).1.nscan := rfl
        rcases ih _ h with ho | ⟨p, pre, d, rest, hp, hL, hd, hmem, hn, hpre, hout⟩
        · left
          rw [ho, hout0]
        · right
          refine ⟨p, pre, d, rest, by omega, hL, hd, hmem, hn, hpre, ?_⟩
          rw [hout, hout0]
    · rw [if_neg hT] at h
      left
      rw [← Option.some.inj h]
      rfl

theorem flag_or_continue (p : Sys × Bool) (f g : Sys → Option Sys) (s' : Sys)
    (h : (if p.2 = true then some p.1 else f p.1) = some s')
    (hfg : ∀ x, f x = some s' → g x = some s') :
    (if p.2 = true then some p.1 else g p.1) = some s' := by
  by_cases hp : p.2 = true
  · rw [if_pos hp] at h ⊢
    exact h
  · rw [if_neg hp] at h ⊢
    exact hfg _ h

theorem poll_loop_fuel_succ (cfg : app_cfg_t) (w : World) (B : List CStr) (nbase : Int)
    (t0 : Nat) (T : Int) (fuel : Nat) (s s' : Sys)
    (h : poll_loop cfg w B nbase t0 T fuel s = some s') :
    poll_loop cfg w B nbase t0 T (fuel + 1) s = some s' := by
  induction fuel generalizing s with
  | zero => simp [poll_loop] at h
  | succ fuel ih =>
    rw [poll_loop] at h ⊢
    by_cases hT : int_cast (now_ms s - t0) < T
    · rw [if_pos hT] at h ⊢
      exact flag_or_continue _
        (fun x => poll_loop cfg w B nbase t0 T fuel (usleep w (50 * 1000) x))
        (fun x => poll_loop cfg w B nbase t0 T (fuel + 1) (usleep w (50 * 1000) x)) s' h
        (fun x hx => ih _ hx)
    · rw [if_neg hT] at h ⊢
      exact h

theorem poll_loop_fuel_le (cfg : app_cfg_t) (w : World) (B : List CStr) (nbase : Int)
    (t0 : Nat) (T : Int) (fuel fuel' : Nat) (s s' : Sys) (hle : fuel ≤ fuel')
    (h : poll_loop cfg w B nbase t0 T fuel s = some s') :
    poll_loop cfg w B nbase t0 T fuel' s = some s' := by
  induction fuel' with
  | zero =>
    have : fuel = 0 := by omega
    rw [this] at h
    exact h
  | succ n ih =>
    by_cases he : fuel = n + 1
    · rw [← he]
      exact h
    · exact poll_loop_fuel_succ cfg w B nbase t0 T n s s' (ih (by omega))

theorem handle_test_fuel_le (cfg : app_cfg_t) (w : World) (timeout_ms : Int)
    (fuel fuel' : Nat) (s s' : Sys) (hle : fuel ≤ fuel')
    (h : handle_test cfg w timeout_ms fuel s = some s') :
    handle_test cfg w timeout_ms fuel' s = some s' := by
  unfold handle_test at h ⊢
  simp only [] at h ⊢
  split
  · rename_i hn
    rw [if_pos hn] at h
    exact h
  · rename_i hn
    rw [if_neg hn] at h
    exact poll_loop_fuel_le cfg w _ _ _ _ fuel fuel' _ _ hle h

theorem handle_test_fuel_unique (cfg : app_cfg_t) (w : World) (timeout_ms : Int)
    (fuel fuel' : Nat) (s s' s'' : Sys)
    (h : handle_test cfg w timeout_ms fuel s = some s')
    (h' : handle_test cfg w timeout_ms fuel' s = some s'') : s'' = s' := by
  by_cases hle : fuel ≤ fuel'
  · have := handle_test_fuel_le cfg w timeout_ms fuel fuel' s s' hle h
    rw [this] at h'
    exact (Option.some.inj h').symm
  · have := handle_test_fuel_le cfg w timeout_ms fuel' fuel s s'' (by omega) h'
    rw [this] at h
    exact Option.some.inj h

theorem world_ext (w w' : World) (hr : ∀ k, w'.readdir k = w.readdir k)
    (ho : ∀ k, w'.over k = w.over k) : w' = w := by
  cases w
  cases w'
  simp only [World.mk.injEq]
  exact ⟨funext hr, funext ho⟩

/-- C16: the confirmed device is the first surviving new identifier. In every
run of `handle_test` that returns, the one published event is the `w1_read`
event, a timeout event, or the pass event of a device `d` for which there is a
polling enumeration, the `p`-th of the run, whose snapshot is
`pre ++ d :: rest` with: `d` outside the baseline snapshot; `d` in the
enumeration made after its own debounce sleep, which is the last of the run;
and every entry of `pre` either in the baseline or absent from the
enumeration made after its own debounce sleep (the k-th new entry of the
snapshot is re-checked by enumeration `p + 1 + k`). The result depends on
the enumeration results and the clock alone: another environment with the
same enumeration results and sleeps, and any other fuel with which the run
returns, give the same final state and so the same device. -/
theorem handle_test_first_survivor (cfg : app_cfg_t) (w : World) (timeout_ms : Int)
    (fuel : Nat) (s s' : Sys) (h : handle_test cfg w timeout_ms fuel s = some s') :
    ((w.readdir s.nscan = none ∧ s'.out = s.out ++ [test_w1_read_json]) ∨
     (s'.out = s.out ++ [test_timeout_json (unsigned_cast (s'.clock - s.clock))]) ∨
     (∃ p pre d rest, s.nscan < p ∧ (snapshot cfg w p).2 = pre ++ d :: rest ∧
       d ∉ (snapshot cfg w s.nscan).2 ∧
       d ∈ (snapshot cfg w (p + 1 + (new_entries (snapshot cfg w s.nscan).2 pre).length)).2 ∧
       s'.nscan = p + 1 + (new_entries (snapshot cfg w s.nscan).2 pre).length + 1 ∧
       (∀ q x, pre[q]? = some x →
         x ∈ (snapshot cfg w s.nscan).2 ∨
         x ∉ (snapshot cfg w
           (p + 1 + (new_entries (snapshot cfg w s.nscan).2 (pre.take q)).length)).2) ∧
       s'.out = s.out ++ [test_pass_json d (unsigned_cast (s'.clock - s.clock))])) ∧
    (∀ (w' : World) (fuel' : Nat) (s'' : Sys),
      (∀ k, w'.readdir k = w.readdir k) → (∀ k, w'.over k = w.over k) →
      handle_test cfg w' timeout_ms fuel' s = some s'' → s'' = s') := by
  constructor
  · have h0 := h
    rw [handle_test_eq] at h0
    by_cases hr : w.readdir s.nscan = none
    · rw [if_pos hr] at h0
      left
      refine ⟨hr, ?_⟩
      rw [← Option.some.inj h0]
      rfl
    · rw [if_neg hr] at h0
      right
      rcases poll_loop_first cfg w _ _ _ _ _ _ h0 with
        ho | ⟨p, pre, d, rest, hp, hL, hd, hmem, hn, hpre, hout⟩
      · left
        exact ho
      · right
        exact ⟨p, pre, d, rest, hp, hL, hd, hmem, hn, hpre, hout⟩
  · intro w' fuel' s'' hr ho h'
    rw [world_ext w w' hr ho] at h'
    exact handle_test_fuel_unique cfg w timeout_ms fuel fuel' s s' s'' h h'

theorem snapshot_worldG (m : Nat) :
    snapshot cfgA worldG m =
      if m = 0 then (0, []) else if m = 2 then (1, [devB]) else (2, [devA, devB]) := by
  unfold snapshot
  show list_w1_result cfgA MAX_DEVICES
    (if m = 0 then _ else if m = 2 then _ else _) = _
  by_cases h0 : m = 0
  · rw [if_pos h0, if_pos h0]
    decide
  · rw [if_neg h0, if_neg h0]
    by_cases h2 : m = 2
    · rw [if_pos h2, if_pos h2]
      decide
    · rw [if_neg h2, if_neg h2]
      decide

/-- Witness of C16: `devA` and `devB` appear at once, `devA` is gone after its
debounce sleep and `devB` is there after its own: the pass event names `devB`,
200 ms after the baseline, with whatever fuel the run returns. -/
theorem handle_test_first_survivor_witness :
    handle_test cfgA worldG 10000 1 sys0 = some ⟨200, 4, 2, [test_pass_json devB 200]⟩ ∧
    (snapshot cfgA worldG 1).2 = [devA] ++ devB :: [] ∧
    devA ∉ (snapshot cfgA worldG 2).2 ∧ devB ∈ (snapshot cfgA worldG 3).2 ∧
    (∀ s'', handle_test cfgA worldG 10000 7 sys0 = some s'' →
      s'' = ⟨200, 4, 2, [test_pass_json devB 200]⟩) := by
  have hrun : handle_test cfgA worldG 10000 1 sys0
      = some ⟨200, 4, 2, [test_pass_json devB 200]⟩ := by decide
  have hall := handle_test_first_survivor cfgA worldG 10000 1 sys0 _ hrun
  exact ⟨hrun, by decide, by decide, by decide,
    fun s'' h7 => hall.2 worldG 7 s'' (fun _ => rfl) (fun _ => rfl) h7⟩

/-! ## C18: the timeout is checked between polling passes only -/

theorem poll_loop_expired (cfg : app_cfg_t) (w : World) (B : List CStr) (nbase : Int)
    (t0 : Nat) (T : Int) (fuel : Nat) (s : Sys) (h : ¬ int_cast (s.clock - t0) < T) :
    poll_loop cfg w B nbase t0 T (fuel + 1) s =
      some ⟨s.clock, s.nscan, s.nsleep,
        s.out ++ [test_timeout_json (unsigned_cast (s.clock - t0))]⟩ := by
  have h2 : ¬ int_cast (now_ms s - t0) < T := h
  rw [poll_loop, if_neg h2]
  rfl

/-- Runs in which the pass event comes after the timeout, the timeout being
checked at the head of a polling pass only: with the timeout 120 ms a device
first seen by the pass that starts at 100 ms is confirmed at 200 ms, and with
the timeout 150 ms, when two devices appear at once and the first is gone
after its debounce sleep, the second is confirmed at 200 ms. In these runs
the polling enumerations start at 0, 50 and 100 ms, and at 0 ms. At a loop
head where the cast `(int)(now_ms() - t0)` is not below the timeout,
`handle_test` publishes the timeout event with no further enumeration; that
is every loop head at or past the timeout as long as the elapsed time is
below `2 ^ 31` ms. -/
theorem handle_test_pass_after_timeout :
    (handle_test cfgA worldA 120 3 sys0 = some ⟨200, 5, 3, [test_pass_json devA 200]⟩ ∧
      effective_timeout cfgA 120 ≤ 200 ∧
      handle_test cfgA worldA 120 3 sys0 = poll_loop cfgA worldA [] 0 0 120 3 ⟨0, 1, 0, []⟩ ∧
      handle_test cfgA worldA 120 3 sys0 = poll_loop cfgA worldA [] 0 0 120 2 ⟨50, 2, 1, []⟩ ∧
      handle_test cfgA worldA 120 3 sys0 = poll_loop cfgA worldA [] 0 0 120 1 ⟨100, 3, 2, []⟩) ∧
    (handle_test cfgA worldG 150 1 sys0 = some ⟨200, 4, 2, [test_pass_json devB 200]⟩ ∧
      effective_timeout cfgA 150 ≤ 200 ∧
      handle_test cfgA worldG 150 1 sys0 = poll_loop cfgA worldG [] 0 0 150 1 ⟨0, 1, 0, []⟩) ∧
    (∀ (cfg : app_cfg_t) (w : World) (B : List CStr) (nbase : Int) (t0 : Nat) (T : Int)
        (fuel : Nat) (s : Sys),
      (¬ int_cast (s.clock - t0) < T →
        poll_loop cfg w B nbase t0 T (fuel + 1) s =
          some ⟨s.clock, s.nscan, s.nsleep,
            s.out ++ [test_timeout_json (unsigned_cast (s.clock - t0))]⟩) ∧
      (s.clock - t0 < 2 ^ 31 → T ≤ ((s.clock - t0 : Nat) : Int) →
        poll_loop cfg w B nbase t0 T (fuel + 1) s =
          some ⟨s.clock, s.nscan, s.nsleep,
            s.out ++ [test_timeout_json (unsigned_cast (s.clock - t0))]⟩)) := by
  refine ⟨by decide, by decide, fun cfg w B nbase t0 T fuel s => ⟨?_, ?_⟩⟩
  · exact poll_loop_expired cfg w B nbase t0 T fuel s
  · intro hsmall hT
    apply poll_loop_expired
    rw [int_cast_small _ hsmall]
    omega

theorem snapshot_length_le (cfg : app_cfg_t) (w : World) (k : Nat) :
    (snapshot cfg w k).2.length ≤ 32 := by
  unfold snapshot
  cases w.readdir k with
  | none => exact Nat.zero_le _
  | some names =>
    rw [list_w1_result_some]
    simp only [List.length_take, List.length_map]
    have : (MAX_DEVICES : Int).toNat = 32 := rfl
    omega

theorem rechecked_clock (cfg : app_cfg_t) (w : World) (s : Sys) :
    (rechecked cfg w s).clock =
      s.clock + ((cfg.test.debounce_ms * 1000) % 2 ^ 32).toNat / 1000 + w.over s.nsleep := rfl

theorem debounce_loop_clock_le (cfg : app_cfg_t) (w : World) (B : List CStr) (t0 : Nat)
    (V D : Nat) (hover : ∀ k, w.over k ≤ V)
    (hdeb : ((cfg.test.debounce_ms * 1000) % 2 ^ 32).toNat / 1000 ≤ D)
    (L : List CStr) (s : Sys) :
    (debounce_loop cfg w B (B.length : Int) t0 L s).1.clock ≤ s.clock + L.length * (D + V) := by
  induction L generalizing s with
  | nil => simp [debounce_loop]
  | cons x tl ih =>
    rw [debounce_loop_cons, List.length_cons, Nat.succ_mul]
    have hr : (rechecked cfg w s).clock ≤ s.clock + (D + V) := by
      rw [rechecked_clock]
      have := hover s.nsleep
      omega
    by_cases hx : x ∈ B
    · rw [if_pos hx]
      have := ih s
      omega
    · rw [if_neg hx]
      by_cases hc : x ∈ (snapshot cfg w s.nscan).2
      · rw [if_pos hc]
        show (rechecked cfg w s).clock ≤ _
        omega
      · rw [if_neg hc]
        have := ih (rechecked cfg w s)
        omega

theorem poll_loop_returns (cfg : app_cfg_t) (w : World) (B : List CStr) (t0 : Nat) (T : Int)
    (V D : Nat) (hover : ∀ k, w.over k ≤ V)
    (hdeb : ((cfg.test.debounce_ms * 1000) % 2 ^ 32).toNat / 1000 ≤ D)
    (hrange : T + 50 + V + 32 * (D + V) ≤ 2 ^ 31)
    (n : Nat) (s : Sys) (ht0 : t0 ≤ s.clock)
    (hel : ((s.clock - t0 : Nat) : Int) < T + 50 + V + 32 * (D + V) ∨ s.clock - t0 < 2 ^ 31)
    (hn : T ≤ ((s.clock - t0 : Nat) : Int) + 50 * n) :
    ∃ s', poll_loop cfg w B (B.length : Int) t0 T (n + 1) s = some s' := by
  have hsmall : s.clock - t0 < 2 ^ 31 := by
    rcases hel with h | h
    · omega
    · exact h
  induction n generalizing s with
  | zero =>
    rw [poll_loop_succ, if_neg]
    · exact ⟨_, rfl⟩
    · rw [int_cast_small _ hsmall]
      omega
  | succ m ih =>
    rw [poll_loop_succ]
    by_cases hT : int_cast (s.clock - t0) < T
    · rw [if_pos hT]
      rw [int_cast_small _ hsmall] at hT
      by_cases hb :
          (debounce_loop cfg w B (B.length : Int) t0 (snapshot cfg w s.nscan).2 (scanned s)).2
            = true
      · rw [if_pos hb]
        exact ⟨_, rfl⟩
      · rw [if_neg hb]
        have hup := debounce_loop_clock_le cfg w B t0 V D hover hdeb
          (snapshot cfg w s.nscan).2 (scanned s)
        obtain ⟨_, hlo, _, _, _⟩ :=
          debounce_loop_spec cfg w B t0 (snapshot cfg w s.nscan).2 (scanned s)
        have hlen := snapshot_length_le cfg w s.nscan
        have hsc : (scanned s).clock = s.clock := rfl
        rw [hsc] at hup hlo
        have hmul : (snapshot cfg w s.nscan).2.length * (D + V) ≤ 32 * (D + V) :=
          Nat.mul_le_mul_right _ hlen
        have hov := hover (debounce_loop cfg w B (B.length : Int) t0
          (snapshot cfg w s.nscan).2 (scanned s)).1.nsleep
        have hclk : (usleep w (50 * 1000) (debounce_loop cfg w B (B.length : Int) t0
            (snapshot cfg w s.nscan).2 (scanned s)).1).clock =
            (debounce_loop cfg w B (B.length : Int) t0
              (snapshot cfg w s.nscan).2 (scanned s)).1.clock + 50 +
            w.over (debounce_loop cfg w B (B.length : Int) t0
              (snapshot cfg w s.nscan).2 (scanned s)).1.nsleep := rfl
        apply ih
        · rw [hclk]
          omega
        · left
          rw [hclk]
          omega
        · rw [hclk]
          omega
        · rw [hclk]
          omega
    · rw [if_neg hT]
      exact ⟨_, rfl⟩

/-- Where the elapsed time stays in the range of `int`, `handle_test` returns
within `ceil(T / 50)` polling passes, `T` being the effective timeout: for
every sequence of enumeration results and every clock whose sleeps overshoot
by at most `V` ms, with a debounce sleep of at most `D` ms and
`T + 50 + V + 32 * (D + V) <= 2 ^ 31`. With an effective timeout of 0 or less
it publishes the timeout event right after the baseline, with no polling
enumeration and no sleep. -/
theorem handle_test_returns_in_range (cfg : app_cfg_t) (w : World) (timeout_ms : Int)
    (s : Sys) (V D : Nat) (hover : ∀ k, w.over k ≤ V)
    (hdeb : ((cfg.test.debounce_ms * 1000) % 2 ^ 32).toNat / 1000 ≤ D)
    (hrange : effective_timeout cfg timeout_ms + 50 + V + 32 * (D + V) ≤ 2 ^ 31) :
    (∃ s', handle_test cfg w timeout_ms
      (((effective_timeout cfg timeout_ms).toNat + 49) / 50 + 1) s = some s') ∧
    (effective_timeout cfg timeout_ms ≤ 0 → w.readdir s.nscan ≠ none → ∀ fuel,
      handle_test cfg w timeout_ms (fuel + 1) s =
        some ⟨s.clock, s.nscan + 1, s.nsleep, s.out ++ [test_timeout_json 0]⟩) := by
  constructor
  · rw [handle_test_eq]
    by_cases hr : w.readdir s.nscan = none
    · rw [if_pos hr]
      exact ⟨_, rfl⟩
    · rw [if_neg hr]
      apply poll_loop_returns cfg w _ s.clock _ V D hover hdeb hrange
      · exact Nat.le_refl _
      · right
        show s.clock - s.clock < 2 ^ 31
        rw [Nat.sub_self]
        decide
      · show effective_timeout cfg timeout_ms ≤ ((s.clock - s.clock : Nat) : Int) + _
        rw [Nat.sub_self]
        push_cast
        omega
  · intro hT hr fuel
    rw [handle_test_eq, if_neg hr, poll_loop_expired]
    · show some (⟨s.clock, s.nscan + 1, s.nsleep,
        s.out ++ [test_timeout_json (unsigned_cast (s.clock - s.clock))]⟩ : Sys) = _
      rw [Nat.sub_self]
      rfl
    · show ¬ int_cast (s.clock - s.clock) < _
      rw [Nat.sub_self]
      have : int_cast 0 = 0 := by decide
      rw [this]
      omega

/-- The run of scenario B with the timeout 200 ms returns within four passes;
with the timeout and the default both 0 the timeout event follows the
baseline at once. -/
theorem handle_test_returns_in_range_witness :
    (∃ s', handle_test cfgA worldB 200 (((effective_timeout cfgA 200).toNat + 49) / 50 + 1)
      sys0 = some s') ∧
    handle_test ⟨⟨[], []⟩, ⟨0, 100⟩⟩ worldB 0 1 sys0 = some ⟨0, 1, 0, [test_timeout_json 0]⟩ :=
  ⟨(handle_test_returns_in_range cfgA worldB 200 sys0 0 100 (fun _ => Nat.le_refl _)
      (by decide) (by decide)).1,
   (handle_test_returns_in_range ⟨⟨[], []⟩, ⟨0, 100⟩⟩ worldB 0 sys0 0 100
      (fun _ => Nat.le_refl _) (by decide) (by decide)).2 (by decide) (by decide) 0⟩

/-- C20, the code at the failing input: with the effective timeout `INT_MAX`
the bound of the claim is `ceil(2147483647 / 50) = 42949673` passes, and
`handle_test`, with `01-x` attached throughout and an exact clock, returns
neither within that many passes nor with any other fuel. -/
theorem handle_test_pass_bound_fails :
    effective_timeout cfgA INT_MAX = 2147483647 ∧
    (2147483647 + 49) / 50 = 42949673 ∧
    handle_test cfgA worldB INT_MAX (42949673 + 1) sys0 = none ∧
    (∀ fuel, handle_test cfgA worldB INT_MAX fuel sys0 = none) :=
  ⟨by decide, by decide, hang_at_int_max _, hang_at_int_max⟩

end IButton
